import Mathlib

/-!
# The UART lab's line editor (`lab_uart 2/main.c`)

A shallow embedding of `shiftright`, `shiftleft` and `readline`, and the
properties of the editor proved or refuted on it.  The reload value of the
blink timer (`TCNTVAL`, same file) and the receive interrupt of the SPI lab
follow the editor's definitions.

Modelling conventions.

* A `char` value is an `Int`: the comparisons of the source
  (`recv >= ' '`, `recv == 0x1b`, ...) are then the comparisons of the model,
  whatever the signedness of `char`.
* The caller's array is a `List Int`; `bufsz` is its length (the parameter
  is documented as "length of buffer", and `main` passes the array's size).
  `stepIn` and `loopIn` take `bufsz` apart from the list, which may then
  hold the bytes that follow the array in memory as well; `step` and `loop`
  are the case where the list is the array.
* A read or write of an array element outside the array by an assignment or
  by one of the two shift loops makes the step `fault`: what happens next
  depends on memory the model does not hold.
* What is written to `stdout` is a list of `Emit`: a character, or `unknown`
  for a run of bytes the array does not determine (`printf("%s", ...)`
  reading past the end of the array, or before its start).  The state after
  such a `printf` is still determined, so the step goes on.
* `stdout` is taken at the level of stdio: the characters handed to
  `printf` and `fputc`, before `uart_putchar` puts a CR in front of each LF.
* `size_t` and `int` are those of avr-gcc: 16 bits.
-/

namespace Readline

/-- One item written to `stdout`. -/
inductive Emit
  | ch (c : Int)
  | unknown
  deriving DecidableEq

/-- The editor's parser mode: `typedef enum {NORM, ESC, ESC3} mode_t`. -/
inductive mode_t
  | NORM
  | ESC
  | ESC3
  deriving DecidableEq

/-- The local variables of `readline` together with the caller's array.
`recv` is the character read last (`prev` of the next iteration). -/
structure State where
  buf : List Int
  cursor : Nat
  used : Nat
  recv : Int
  mode : mode_t
  deriving DecidableEq

/-- Largest value of avr-gcc's 16-bit `size_t`. -/
def SIZE_MAX : Nat := 65535

/-- The `size_t` expression `n - 1` (it wraps at zero). -/
def decSize (n : Nat) : Nat := if n = 0 then SIZE_MAX else n - 1

/-- The assignment `buf[i] = v`; `none` when `i` is outside the array. -/
def store (buf : List Int) (i : Nat) (v : Int) : Option (List Int) :=
  if i < buf.length then some (buf.set i v) else none

/-- The loop of `shiftright`, with `n` elements left to move: the pointer `c`
is at index `start + n - 1`, and the loop ends when `c` is below
`&buf[start]`. -/
def shiftrightLoop (start : Nat) : Nat → List Int → Option (List Int)
  | 0, buf => some buf
  | n + 1, buf =>
    match buf[start + n]? with
    | none => none
    | some v =>
      match store buf (start + n + 1) v with
      | none => none
      | some buf1 => shiftrightLoop start n buf1

/-- Source `shiftright(buf, used, start)`: for `c` from `&buf[used-1]` down to
`&buf[start]`, `*(c+1) = *c`.  Pointers into the array are compared as
indices.  The loop body runs `used - start` times, and not at all when
`used - 1 < start` (which includes `used = 0`, where `&buf[used-1]` is the
address just below the array). -/
def shiftright (buf : List Int) (used start : Nat) : Option (List Int) :=
  shiftrightLoop start (used - start) buf

/-- The loop of `shiftleft`, with `n` elements left to move and the pointer
`c` at index `c`. -/
def shiftleftLoop : Nat → Nat → List Int → Option (List Int)
  | 0, _, buf => some buf
  | n + 1, c, buf =>
    match buf[c + 1]? with
    | none => none
    | some v =>
      match store buf c v with
      | none => none
      | some buf1 => shiftleftLoop n (c + 1) buf1

/-- Source `shiftleft(buf, used, start)`: for `c` from `&buf[start]` up to
`&buf[used-1]`, `*c = *(c+1)`. -/
def shiftleft (buf : List Int) (used start : Nat) : Option (List Int) :=
  shiftleftLoop (used - start) start buf

/-- The characters of a string literal, as written to `stdout`. -/
def lit (s : String) : List Emit := s.toList.map (fun c => Emit.ch (c.toNat : Int))

/-- The digits of `n` in the given base, as written to `stdout`. -/
def digits (base n : Nat) : List Emit :=
  (Nat.toDigits base n).map (fun c => Emit.ch (c.toNat : Int))

/-- Conversion `%i` of printf applied to an `int`. -/
def fmt_i (v : Int) : List Emit :=
  if v < 0 then Emit.ch 0x2d :: digits 10 (-v).toNat else digits 10 v.toNat

/-- A `size_t` value read back as the 16-bit `int` that `%i` expects. -/
def sizeAsInt (n : Nat) : Int :=
  if n % 65536 < 32768 then ((n % 65536 : Nat) : Int) else ((n % 65536 : Nat) : Int) - 65536

/-- Conversion `%x` of printf applied to a `char` promoted to `int` (the 16
bits are read as unsigned). -/
def fmt_x (c : Int) : List Emit := digits 16 (c % 65536).toNat

/-- Conversion `%s` of printf applied to `&buf[i]`: the characters from index
`i` up to the first null; `unknown` stands for what is read outside the
array when the array holds no null from `i` on. -/
def fmt_s : List Int → List Emit
  | [] => [Emit.unknown]
  | c :: cs => if c = 0 then [] else Emit.ch c :: fmt_s cs

/-- Source `printf("%c[%iD", 0x1b, n)`. -/
def moveLeft (n : Int) : List Emit := [Emit.ch 0x1b, Emit.ch 0x5b] ++ fmt_i n ++ [Emit.ch 0x44]

/-- Source `printf("%c[%iC", 0x1b, n)`. -/
def moveRight (n : Int) : List Emit := [Emit.ch 0x1b, Emit.ch 0x5b] ++ fmt_i n ++ [Emit.ch 0x43]

/-- Source `printf("Don't know how to handle 0x%x<tail>", recv)`. -/
def diag (recv : Int) (tail : String) : List Emit :=
  lit "Don't know how to handle 0x" ++ fmt_x recv ++ lit tail

/-- The terminal bell `'\a'`. -/
def bell : List Emit := [Emit.ch 7]

/-- The outcome of one iteration of `while (1)`. -/
inductive StepResult
  | cont (s : State) (out : List Emit)
  | ret (s : State) (out : List Emit)
  | fault
  deriving DecidableEq

/-- One iteration of the loop of `readline(buf, prompt, bufsz, stream)` on the
character `recv` just read; `prompt` holds the characters of the prompt before
its null.  `s0.buf` is the memory from `buf[0]` on that the model holds: the
`bufsz` elements of the array, followed by the bytes behind the array when it
is longer than `bufsz`.  The branches are those of the source's
`if ... else if` chain, in its order.  (The two
`for (int i = 0; i < bufsz; i++) printf(" ")` loops write `bufsz` blanks.) -/
def stepIn (bufsz : Nat) (prompt : List Int) (s0 : State) (recv : Int) : StepResult :=
  let prev := s0.recv
  let s : State := { s0 with recv := recv }
  if recv = 0x1b then
    .cont { s with mode := .ESC } []
  else if (recv = 0x5d ∨ recv = 0x5d) ∧ s.mode = .ESC then
    .cont s []
  else if recv = 0x48 ∧ s.mode = .ESC then
    .cont { s with cursor := 0, mode := .NORM }
      (moveLeft 1000 ++ moveRight (sizeAsInt prompt.length))
  else if recv = 0x46 ∧ s.mode = .ESC then
    .cont { s with cursor := s.used, mode := .NORM }
      (moveLeft 1000 ++ moveRight (sizeAsInt (s.used + prompt.length)))
  else if s.mode = .NORM ∧ recv ≥ 0x20 ∧ recv ≠ 0x7f then
    if s.cursor ≥ decSize bufsz then
      .cont s bell
    else if s.cursor = s.used then
      match store s.buf s.cursor recv with
      | none => .fault
      | some b1 =>
        match store b1 (s.cursor + 1) 0 with
        | none => .fault
        | some b2 =>
          .cont { s with buf := b2, cursor := s.cursor + 1, used := s.used + 1 } [Emit.ch recv]
    else
      match shiftright s.buf s.used s.cursor with
      | none => .fault
      | some b1 =>
        match store b1 s.cursor recv with
        | none => .fault
        | some b2 =>
          .cont { s with buf := b2, cursor := s.cursor + 1, used := s.used + 1 }
            (fmt_s (b2.drop s.cursor) ++ moveLeft 1000
              ++ moveRight (sizeAsInt (s.cursor + 1 + prompt.length)))
  else if s.mode = .NORM ∧ recv = 0x8 then
    if s.cursor = 0 then
      .cont s bell
    else if s.cursor = s.used then
      match store s.buf (s.cursor - 1) 0 with
      | none => .fault
      | some b1 =>
        .cont { s with buf := b1, cursor := s.cursor - 1, used := decSize s.used }
          [Emit.ch 8, Emit.ch 0x20, Emit.ch 8]
    else
      match shiftleft s.buf s.used (s.cursor - 1) with
      | none => .fault
      | some b1 =>
        match store b1 (decSize s.used) 0 with
        | none => .fault
        | some b2 =>
          .cont { s with buf := b2, cursor := s.cursor - 1, used := decSize s.used }
            ([Emit.ch 8] ++ (fmt_s (b2.drop (s.cursor - 1)) ++ [Emit.ch 0x20]) ++ moveLeft 1000
              ++ moveRight (sizeAsInt (s.cursor - 1 + prompt.length)))
  else if s.mode = .NORM ∧ recv = 0x12 then
    .cont s
      ([Emit.ch 0x0d] ++ List.replicate bufsz (Emit.ch 0x20) ++ [Emit.ch 0x0d]
        ++ (prompt.map Emit.ch ++ fmt_s s.buf) ++ moveLeft 1000
        ++ moveRight (sizeAsInt (s.cursor + prompt.length)))
  else if s.mode = .NORM ∧ recv = 0x03 then
    match store s.buf 0 0 with
    | none => .fault
    | some b1 =>
      .cont { s with buf := b1, cursor := 0, used := 0 }
        ([Emit.ch 0x0d] ++ List.replicate bufsz (Emit.ch 0x20) ++ [Emit.ch 0x0d]
          ++ (prompt.map Emit.ch ++ fmt_s b1))
  else if s.mode = .ESC ∧ recv = 0x5b then
    .cont s []
  else if s.mode = .ESC ∧ recv = 0x44 ∧ prev = 0x5b then
    if s.cursor > 0 then
      .cont { s with cursor := s.cursor - 1, mode := .NORM } (moveLeft 1)
    else
      .cont { s with mode := .NORM } bell
  else if s.mode = .ESC ∧ recv = 0x43 ∧ prev = 0x5b then
    if s.cursor < decSize bufsz then
      .cont { s with cursor := s.cursor + 1, mode := .NORM } (moveRight 1)
    else
      .cont { s with mode := .NORM } bell
  else if s.mode = .ESC ∧ recv = 0x33 then
    .cont { s with mode := .ESC3 } []
  else if s.mode = .ESC3 ∧ recv = 0x7e then
    if s.cursor = s.used then
      .cont { s with mode := .NORM } bell
    else
      match shiftleft s.buf s.used s.cursor with
      | none => .fault
      | some b1 =>
        match store b1 (decSize s.used) 0 with
        | none => .fault
        | some b2 =>
          .cont { s with buf := b2, used := decSize s.used, mode := .NORM }
            ([Emit.ch 8] ++ (fmt_s (b2.drop (decSize s.cursor)) ++ [Emit.ch 0x20]) ++ moveLeft 1000
              ++ moveRight (sizeAsInt (s.cursor + prompt.length)))
  else if s.mode = .NORM then
    .ret s [Emit.ch 0x0a]
  else if s.mode = .ESC then
    .cont { s with mode := .NORM } (diag recv " in ESC mode\n")
  else if s.mode = .ESC3 then
    .cont { s with mode := .NORM } (diag recv " in ESC3 mode\n")
  else
    .cont s (diag recv "\n")

/-- The iteration when the model holds the array and nothing behind it: `bufsz`
is the length of `s0.buf`, and every access outside the array is a `fault` or
an `unknown`. -/
def step (prompt : List Int) (s0 : State) (recv : Int) : StepResult :=
  stepIn s0.buf.length prompt s0 recv

/-- How a run of `readline` on a finite piece of input ends: it returned
(leaving `rest` unread), it is blocked in `fgetc` waiting for more input, or
it made an access outside the array. -/
inductive Result
  | returned (s : State) (out : List Emit) (rest : List Int)
  | waiting (s : State) (out : List Emit)
  | fault
  deriving DecidableEq

/-- The `while (1)` loop of `readline` fed with the characters of `stream`;
`out` is what has been written to `stdout` so far. -/
def loop (prompt : List Int) : State → List Emit → List Int → Result
  | s, out, [] => .waiting s out
  | s, out, c :: cs =>
    match step prompt s c with
    | .cont s1 o => loop prompt s1 (out ++ o) cs
    | .ret s1 o => .returned s1 (out ++ o) cs
    | .fault => .fault

/-- The same loop for a call with the given `bufsz` on a state whose `buf` may
hold bytes behind the array (see `stepIn`). -/
def loopIn (bufsz : Nat) (prompt : List Int) : State → List Emit → List Int → Result
  | s, out, [] => .waiting s out
  | s, out, c :: cs =>
    match stepIn bufsz prompt s c with
    | .cont s1 o => loopIn bufsz prompt s1 (out ++ o) cs
    | .ret s1 o => .returned s1 (out ++ o) cs
    | .fault => .fault

/-- Source `printf(prompt)`: the prompt is the format string, so it is
written as it stands when it holds no `%`; otherwise the output is not
determined by the model. -/
def printf_prompt (prompt : List Int) : List Emit :=
  if (0x25 : Int) ∈ prompt then [Emit.unknown] else prompt.map Emit.ch

/-- The state of `readline` when it enters its loop, `buf0` being the array
after `buf[0] = 0`. -/
def fresh (buf0 : List Int) : State :=
  { buf := buf0, cursor := 0, used := 0, recv := 0, mode := .NORM }

/-- Source `readline(buf, prompt, bufsz, stream)` with `bufsz` the length of
`buf`, run on the characters that `stream` delivers. -/
def readline (buf prompt stream : List Int) : Result :=
  match store buf 0 0 with
  | none => .fault
  | some b0 => loop prompt (fresh b0) (printf_prompt prompt) stream

/-- The C string held by the array: its characters before the first null, or
`none` when the array holds no null (the string then runs past its end). -/
def cstring (buf : List Int) : Option (List Int) :=
  if (0 : Int) ∈ buf then some (buf.takeWhile (fun c => c ≠ 0)) else none

/-- The character codes of a string literal. -/
def codes (s : String) : List Int := s.toList.map (fun c => (c.toNat : Int))

/-- The end of a repositioning as the terminal positioning protocol words it:
the move-left sequence ESC `[` `1000` `D`, then the move-right sequence
ESC `[` n `C` with n the decimal rendering of the prompt's length plus
`cursor`.  It is what the outputs of `step` are compared with. -/
def reposition (prompt : List Int) (cursor : Nat) : List Emit :=
  lit "\x1b[1000D"
    ++ ([Emit.ch 0x1b, Emit.ch 0x5b] ++ digits 10 (prompt.length + cursor) ++ [Emit.ch 0x43])

/-! ## The blink timer of the same file -/

/-- Modulus of avr-gcc's 32-bit `unsigned long`. -/
def ULONG_MOD : Nat := 4294967296

/-- Source `#define CLOCK_PRESCALE 1024UL`. -/
def CLOCK_PRESCALE : Nat := 1024

/-- Source `#define INTERVAL_MS 500UL`. -/
def INTERVAL_MS : Nat := 500

/-- Source `#define TCNTVAL (0xFFFF - ((F_CPU * INTERVAL_MS) / (1000UL * CLOCK_PRESCALE)))`,
every operation carried out in `unsigned long`.  `F_CPU` is set by the build
and not by the file, so it is a parameter. -/
def TCNTVAL (F_CPU : Nat) : Nat :=
  (0xFFFF + ULONG_MOD
      - ((F_CPU * INTERVAL_MS) % ULONG_MOD) / ((1000 * CLOCK_PRESCALE) % ULONG_MOD)) % ULONG_MOD

/-- The same expression in exact integers: the reload value that the comment
above `TCNTVAL` describes. -/
def TCNTVAL_exact (F_CPU : Nat) : Nat :=
  0xFFFF - (F_CPU * INTERVAL_MS) / (1000 * CLOCK_PRESCALE)

/-- Milliseconds until timer 1, counting one tick every `CLOCK_PRESCALE` cycles
of `F_CPU`, passes 0xFFFF when started from `reload`. -/
def overflow_ms (F_CPU reload : Nat) : Nat :=
  ((0xFFFF - reload) * CLOCK_PRESCALE * 1000) / F_CPU

end Readline

/-! # The receive interrupt of the SPI lab (`lab_lis3dh_spi/main.c`) -/

namespace Lis3dh

/-- Source `#define BUFSZ 64`. -/
def BUFSZ : Nat := 64

/-- The globals `char buf[BUFSZ+1]` and `uint8_t cursor`. -/
structure Rx where
  buf : List Int
  cursor : Nat
  deriving DecidableEq

/-- Source `ISR (USART_RX_vect)` with `udr0` the byte read from `UDR0`:
`buf[cursor] = UDR0; buf[BUFSZ+1] = 0; cursor = (cursor + 1) % BUFSZ`.
A write outside the list gives `none`. -/
def USART_RX_vect (s : Rx) (udr0 : Int) : Option Rx :=
  match Readline.store s.buf s.cursor udr0 with
  | none => none
  | some b1 =>
    match Readline.store b1 (BUFSZ + 1) 0 with
    | none => none
    | some b2 => some { buf := b2, cursor := (s.cursor + 1) % BUFSZ }

end Lis3dh

namespace Readline

/-! ## Lemmas on the array operations -/

theorem getElem?_mid (pre : List Int) (x : Int) (post : List Int) :
    (pre ++ x :: post)[pre.length]? = some x := by
  rw [List.getElem?_append_right (Nat.le_refl _)]; simp

theorem getElem?_mid_of_eq (pre : List Int) (x : Int) (post : List Int) (i : Nat)
    (h : i = pre.length) : (pre ++ x :: post)[i]? = some x := by
  subst h; exact getElem?_mid pre x post

theorem store_mid (pre : List Int) (x v : Int) (post : List Int) (i : Nat)
    (h : i = pre.length) : store (pre ++ x :: post) i v = some (pre ++ v :: post) := by
  subst h; simp [store]

theorem shiftrightLoop_spec (pre : List Int) (mid : List Int) :
    ∀ (x : Int) (post : List Int),
      shiftrightLoop pre.length mid.length (pre ++ mid ++ x :: post)
        = some (pre ++ (match mid with
                        | [] => x :: post
                        | a :: _ => a :: mid ++ post)) := by
  induction mid using List.reverseRecOn with
  | nil => intro x post; simp [shiftrightLoop]
  | append_singleton init l ih =>
    intro x post
    have e1 : pre ++ (init ++ [l]) ++ x :: post = (pre ++ init) ++ l :: (x :: post) := by simp
    have e2 : (init ++ [l]).length = init.length + 1 := by simp
    rw [e1, e2, shiftrightLoop]
    rw [getElem?_mid_of_eq (pre ++ init) l (x :: post) _ (by simp)]
    have e3 : (pre ++ init) ++ l :: (x :: post) = (pre ++ init ++ [l]) ++ x :: post := by simp
    simp only []
    rw [e3, store_mid (pre ++ init ++ [l]) x l post _ (by simp; omega)]
    simp only []
    have e4 : pre ++ init ++ [l] ++ l :: post = pre ++ init ++ l :: (l :: post) := by simp
    rw [e4, ih l (l :: post)]
    cases init <;> simp

theorem shiftleftLoop_spec (mid : List Int) :
    ∀ (pre : List Int) (x : Int) (post : List Int),
      shiftleftLoop mid.length pre.length (pre ++ mid ++ x :: post)
        = some (pre ++ (match mid with
                        | [] => x :: post
                        | _ :: mid1 => mid1 ++ x :: x :: post)) := by
  induction mid with
  | nil => intro pre x post; simp [shiftleftLoop]
  | cons a mid1 ih =>
    intro pre x post
    cases mid1 with
    | nil =>
      have e1 : pre ++ [a] ++ x :: post = (pre ++ [a]) ++ x :: post := by simp
      simp only [List.length_cons, List.length_nil, shiftleftLoop]
      rw [getElem?_mid_of_eq (pre ++ [a]) x post _ (by simp)]
      have e2 : pre ++ [a] ++ x :: post = pre ++ a :: (x :: post) := by simp
      simp only []
      rw [e2, store_mid pre a x (x :: post) _ rfl]
      simp
    | cons b mid2 =>
      have e1 : pre ++ a :: b :: mid2 ++ x :: post = (pre ++ [a]) ++ b :: (mid2 ++ x :: post) := by simp
      have e0 : (a :: b :: mid2).length = (b :: mid2).length + 1 := by simp
      rw [e0, shiftleftLoop, e1]
      rw [getElem?_mid_of_eq (pre ++ [a]) b (mid2 ++ x :: post) _ (by simp)]
      have e2 : (pre ++ [a]) ++ b :: (mid2 ++ x :: post) = pre ++ a :: (b :: (mid2 ++ x :: post)) := by simp
      simp only []
      rw [e2, store_mid pre a b (b :: (mid2 ++ x :: post)) _ rfl]
      simp only []
      have e3 : pre ++ b :: b :: (mid2 ++ x :: post) = (pre ++ [b]) ++ (b :: mid2) ++ x :: post := by simp
      have e4 : pre.length + 1 = (pre ++ [b]).length := by simp
      rw [e3, e4, ih (pre ++ [b]) x post]
      simp


theorem split3 (l : List Int) (i j : Nat) (hij : i ≤ j) (hj : j < l.length) :
    l = l.take i ++ (l.drop i).take (j - i) ++ l[j] :: l.drop (j + 1) := by
  have h1 : l.drop j = l[j] :: l.drop (j + 1) := List.drop_eq_getElem_cons hj
  have h2 : (l.drop i).drop (j - i) = l.drop j := by
    rw [List.drop_drop]; congr 1; omega
  calc l = l.take i ++ l.drop i := (List.take_append_drop i l).symm
    _ = l.take i ++ ((l.drop i).take (j - i) ++ (l.drop i).drop (j - i)) := by
        congr 1; exact (List.take_append_drop _ _).symm
    _ = l.take i ++ (l.drop i).take (j - i) ++ l[j] :: l.drop (j + 1) := by
        rw [h2, h1, List.append_assoc]

theorem length_mid (l : List Int) (i j : Nat) (hj : j < l.length) :
    ((l.drop i).take (j - i)).length = j - i := by
  simp; omega

theorem length_pre (l : List Int) (i : Nat) (hi : i ≤ l.length) : (l.take i).length = i := by
  simp; omega

theorem shiftright_spec (l : List Int) (used start : Nat) (h1 : start ≤ used)
    (h2 : used < l.length) :
    shiftright l used start
      = some (l.take (start + 1) ++ (l.drop start).take (used - start) ++ l.drop (used + 1)) := by
  have hl := split3 l start used h1 h2
  have hp := length_pre l start (by omega)
  have hm := length_mid l start used h2
  have key := shiftrightLoop_spec (l.take start) ((l.drop start).take (used - start)) l[used]
    (l.drop (used + 1))
  rw [hp, hm, ← hl] at key
  rw [shiftright, key]
  rcases Nat.eq_or_lt_of_le h1 with h | h
  · subst h
    simp only [Nat.sub_self, List.take_zero, List.append_nil]
    rw [← List.drop_eq_getElem_cons h2, List.take_append_drop]
    have : l.take (start + 1) ++ l.drop (start + 1) = l := List.take_append_drop _ _
    rw [this]
  · have hs : start < l.length := by omega
    have e : (l.drop start).take (used - start)
        = l[start] :: ((l.drop (start + 1)).take (used - start - 1)) := by
      rw [List.drop_eq_getElem_cons hs]
      have : used - start = (used - start - 1) + 1 := by omega
      rw [this, List.take_succ_cons]
      simp
    have e5 : l.take (start + 1) = l.take start ++ [l[start]] := by
      rw [List.take_succ]; simp [List.getElem?_eq_getElem hs]
    rw [e5, e]
    simp only [List.append_assoc, List.cons_append, List.nil_append]


theorem take_succ_eq (l : List Int) (i : Nat) (hi : i < l.length) :
    l.take (i + 1) = l.take i ++ [l[i]] := by
  rw [List.take_succ]; simp [List.getElem?_eq_getElem hi]

theorem insert_spec (l : List Int) (used start : Nat) (v : Int) (h1 : start ≤ used)
    (h2 : used < l.length) :
    ∃ b1, shiftright l used start = some b1 ∧
      store b1 start v
        = some (l.take start ++ v :: ((l.drop start).take (used - start) ++ l.drop (used + 1))) := by
  refine ⟨_, shiftright_spec l used start h1 h2, ?_⟩
  have hs : start < l.length := by omega
  rw [take_succ_eq l start hs]
  have e : l.take start ++ [l[start]] ++ (l.drop start).take (used - start) ++ l.drop (used + 1)
      = l.take start ++ l[start] :: ((l.drop start).take (used - start) ++ l.drop (used + 1)) := by
    simp only [List.append_assoc, List.cons_append, List.nil_append]
  rw [e]
  exact store_mid _ _ _ _ _ (length_pre l start (by omega)).symm

theorem remove_spec (l : List Int) (used start : Nat) (h1 : start < used)
    (h2 : used < l.length) :
    ∃ b1, shiftleft l used start = some b1 ∧
      store b1 (used - 1) 0
        = some (l.take start ++ ((l.drop (start + 1)).take (used - start - 1) ++ 0 :: l.drop used)) := by
  have hl := split3 l start used (Nat.le_of_lt h1) h2
  have hp := length_pre l start (by omega)
  have hm := length_mid l start used h2
  have hs : start < l.length := by omega
  have e : (l.drop start).take (used - start)
      = l[start] :: ((l.drop (start + 1)).take (used - start - 1)) := by
    rw [List.drop_eq_getElem_cons hs]
    have : used - start = (used - start - 1) + 1 := by omega
    rw [this, List.take_succ_cons]
    simp
  have key := shiftleftLoop_spec ((l.drop start).take (used - start)) (l.take start) l[used]
    (l.drop (used + 1))
  rw [hp, hm, ← hl, e] at key
  simp only [] at key
  refine ⟨_, key, ?_⟩
  have e2 : l.take start ++ ((l.drop (start + 1)).take (used - start - 1)
        ++ l[used] :: l[used] :: l.drop (used + 1))
      = (l.take start ++ (l.drop (start + 1)).take (used - start - 1))
        ++ l[used] :: (l[used] :: l.drop (used + 1)) := by simp
  rw [e2, store_mid _ _ _ _ (used - 1) (by simp; omega)]
  rw [List.drop_eq_getElem_cons h2]
  simp


theorem decSize_pos (n : Nat) (h : 0 < n) : decSize n = n - 1 := by
  unfold decSize; split <;> omega

theorem step_overflow (prompt : List Int) (s : State) (c : Int) (hm : s.mode = .NORM)
    (hc : 0x20 ≤ c) (hc2 : c ≠ 0x7f) (hfull : decSize s.buf.length ≤ s.cursor) :
    step prompt s c = .cont { s with recv := c } bell := by
  rcases s with ⟨buf, cursor, used, r, mode⟩
  simp only at hm hfull
  subst hm
  have h1 : c ≠ 0x1b := by omega
  simp [step, stepIn, h1, hc, hc2, hfull]

theorem step_append (prompt : List Int) (s : State) (c : Int) (hm : s.mode = .NORM)
    (hc : 0x20 ≤ c) (hc2 : c ≠ 0x7f) (hcu : s.cursor = s.used)
    (hroom : s.cursor + 1 < s.buf.length) :
    step prompt s c
      = .cont { s with recv := c, buf := (s.buf.set s.cursor c).set (s.cursor + 1) 0,
                       cursor := s.cursor + 1, used := s.used + 1 } [Emit.ch c] := by
  rcases s with ⟨buf, cursor, used, r, mode⟩
  simp only at hm hcu hroom
  subst hm; subst hcu
  have h1 : c ≠ 0x1b := by omega
  have h2 : ¬ decSize buf.length ≤ cursor := by
    rw [decSize_pos _ (by omega)]; omega
  have h3 : cursor < buf.length := by omega
  simp [step, stepIn, h1, hc, hc2, h2, store, hroom, h3]

theorem step_insert (prompt : List Int) (s : State) (c : Int) (hm : s.mode = .NORM)
    (hc : 0x20 ≤ c) (hc2 : c ≠ 0x7f) (hcu : s.cursor < s.used)
    (hroom : s.used + 1 < s.buf.length) :
    step prompt s c
      = .cont { s with recv := c,
                       buf := s.buf.take s.cursor
                         ++ c :: ((s.buf.drop s.cursor).take (s.used - s.cursor)
                         ++ s.buf.drop (s.used + 1)),
                       cursor := s.cursor + 1, used := s.used + 1 }
          (fmt_s (c :: ((s.buf.drop s.cursor).take (s.used - s.cursor)
              ++ s.buf.drop (s.used + 1)))
            ++ moveLeft 1000 ++ moveRight (sizeAsInt (s.cursor + 1 + prompt.length))) := by
  rcases s with ⟨buf, cursor, used, r, mode⟩
  simp only at hm hcu hroom
  subst hm
  have h1 : c ≠ 0x1b := by omega
  have h2 : ¬ decSize buf.length ≤ cursor := by
    rw [decSize_pos _ (by omega)]; omega
  have h3 : cursor ≠ used := by omega
  obtain ⟨b1, hb1, hb2⟩ := insert_spec buf used cursor c (by omega) (by omega)
  have hd : (buf.take cursor ++ c :: ((buf.drop cursor).take (used - cursor)
      ++ buf.drop (used + 1))).drop cursor
      = c :: ((buf.drop cursor).take (used - cursor) ++ buf.drop (used + 1)) := by
    rw [List.drop_left' (length_pre buf cursor (by omega))]
  simp [step, stepIn, h1, hc, hc2, h2, h3, hb1, hb2, hd]


theorem step_backspace_end (prompt : List Int) (s : State) (hm : s.mode = .NORM)
    (h0 : 0 < s.cursor) (hcu : s.cursor = s.used) (hlen : s.used ≤ s.buf.length) :
    step prompt s 8
      = .cont { s with recv := 8, buf := s.buf.set (s.cursor - 1) 0,
                       cursor := s.cursor - 1, used := s.used - 1 }
          [Emit.ch 8, Emit.ch 0x20, Emit.ch 8] := by
  rcases s with ⟨buf, cursor, used, r, mode⟩
  simp only at hm h0 hcu hlen
  subst hm; subst hcu
  have h1 : cursor ≠ 0 := by omega
  have h2 : cursor - 1 < buf.length := by omega
  simp [step, stepIn, h1, store, h2, decSize]

theorem step_backspace_mid (prompt : List Int) (s : State) (hm : s.mode = .NORM)
    (h0 : 0 < s.cursor) (hcu : s.cursor < s.used) (hlen : s.used < s.buf.length) :
    step prompt s 8
      = .cont { s with recv := 8,
                       buf := s.buf.take (s.cursor - 1)
                         ++ ((s.buf.drop s.cursor).take (s.used - s.cursor) ++ 0 :: s.buf.drop s.used),
                       cursor := s.cursor - 1, used := s.used - 1 }
          ([Emit.ch 8]
            ++ (fmt_s ((s.buf.drop s.cursor).take (s.used - s.cursor) ++ 0 :: s.buf.drop s.used)
                ++ [Emit.ch 0x20])
            ++ moveLeft 1000 ++ moveRight (sizeAsInt (s.cursor - 1 + prompt.length))) := by
  rcases s with ⟨buf, cursor, used, r, mode⟩
  simp only at hm h0 hcu hlen
  subst hm
  obtain ⟨k, rfl⟩ : ∃ k, cursor = k + 1 := ⟨cursor - 1, by omega⟩
  have h1 : k + 1 ≠ used := by omega
  have h2 : decSize used = used - 1 := decSize_pos _ (by omega)
  obtain ⟨b1, hb1, hb2⟩ := remove_spec buf used k (by omega) hlen
  have e : used - k - 1 = used - (k + 1) := by omega
  rw [e] at hb2
  have hd : (buf.take k ++ ((buf.drop (k + 1)).take (used - (k + 1)) ++ 0 :: buf.drop used)).drop k
      = (buf.drop (k + 1)).take (used - (k + 1)) ++ 0 :: buf.drop used := by
    rw [List.drop_left' (length_pre buf k (by omega))]
  simp [step, stepIn, h1, h2, hb1, hb2, hd]

theorem step_delete_end (prompt : List Int) (s : State) (hm : s.mode = .ESC3)
    (hcu : s.cursor = s.used) :
    step prompt s 0x7e = .cont { s with recv := 0x7e, mode := .NORM } bell := by
  rcases s with ⟨buf, cursor, used, r, mode⟩
  simp only at hm hcu
  subst hm; subst hcu
  simp [step, stepIn]

theorem step_delete (prompt : List Int) (s : State) (hm : s.mode = .ESC3)
    (hcu : s.cursor < s.used) (hlen : s.used < s.buf.length) :
    step prompt s 0x7e
      = .cont { s with recv := 0x7e, mode := .NORM,
                       buf := s.buf.take s.cursor
                         ++ ((s.buf.drop (s.cursor + 1)).take (s.used - s.cursor - 1)
                         ++ 0 :: s.buf.drop s.used),
                       used := s.used - 1 }
          ([Emit.ch 8]
            ++ (fmt_s ((s.buf.take s.cursor
                         ++ ((s.buf.drop (s.cursor + 1)).take (s.used - s.cursor - 1)
                         ++ 0 :: s.buf.drop s.used)).drop (decSize s.cursor))
                ++ [Emit.ch 0x20])
            ++ moveLeft 1000 ++ moveRight (sizeAsInt (s.cursor + prompt.length))) := by
  rcases s with ⟨buf, cursor, used, r, mode⟩
  simp only at hm hcu hlen
  subst hm
  have h1 : cursor ≠ used := by omega
  have h2 : decSize used = used - 1 := decSize_pos _ (by omega)
  obtain ⟨b1, hb1, hb2⟩ := remove_spec buf used cursor (by omega) hlen
  simp [step, stepIn, h1, h2, hb1, hb2]

theorem step_esc (prompt : List Int) (s : State) :
    step prompt s 0x1b = .cont { s with recv := 0x1b, mode := .ESC } [] := by
  simp [step, stepIn]

theorem step_bracket (prompt : List Int) (s : State) (hm : s.mode = .ESC) :
    step prompt s 0x5b = .cont { s with recv := 0x5b } [] := by
  rcases s with ⟨buf, cursor, used, r, mode⟩
  simp only at hm
  subst hm
  simp [step, stepIn]

theorem step_three (prompt : List Int) (s : State) (hm : s.mode = .ESC) :
    step prompt s 0x33 = .cont { s with recv := 0x33, mode := .ESC3 } [] := by
  rcases s with ⟨buf, cursor, used, r, mode⟩
  simp only at hm
  subst hm
  simp [step, stepIn]

theorem step_home (prompt : List Int) (s : State) (hm : s.mode = .ESC) :
    step prompt s 0x48
      = .cont { s with recv := 0x48, cursor := 0, mode := .NORM }
          (moveLeft 1000 ++ moveRight (sizeAsInt prompt.length)) := by
  rcases s with ⟨buf, cursor, used, r, mode⟩
  simp only at hm
  subst hm
  simp [step, stepIn]

theorem step_end (prompt : List Int) (s : State) (hm : s.mode = .ESC) :
    step prompt s 0x46
      = .cont { s with recv := 0x46, cursor := s.used, mode := .NORM }
          (moveLeft 1000 ++ moveRight (sizeAsInt (s.used + prompt.length))) := by
  rcases s with ⟨buf, cursor, used, r, mode⟩
  simp only at hm
  subst hm
  simp [step, stepIn]

theorem step_return (prompt : List Int) (s : State) (hm : s.mode = .NORM) :
    step prompt s 0x0d = .ret { s with recv := 0x0d } [Emit.ch 0x0a] := by
  rcases s with ⟨buf, cursor, used, r, mode⟩
  simp only at hm
  subst hm
  simp [step, stepIn]

theorem loop_cons_cont (prompt : List Int) (s s1 : State) (out o : List Emit) (c : Int)
    (cs : List Int) (h : step prompt s c = .cont s1 o) :
    loop prompt s out (c :: cs) = loop prompt s1 (out ++ o) cs := by
  simp [loop, h]

theorem loop_cons_ret (prompt : List Int) (s s1 : State) (out o : List Emit) (c : Int)
    (cs : List Int) (h : step prompt s c = .ret s1 o) :
    loop prompt s out (c :: cs) = .returned s1 (out ++ o) cs := by
  simp [loop, h]

theorem loop_nil (prompt : List Int) (s : State) (out : List Emit) :
    loop prompt s out [] = .waiting s out := rfl

theorem loop_delete_seq (prompt : List Int) (s s1 : State) (out o : List Emit) (cs : List Int)
    (h : step prompt { s with recv := 0x33, mode := .ESC3 } 0x7e = .cont s1 o) :
    loop prompt s out (0x1b :: 0x5b :: 0x33 :: 0x7e :: cs) = loop prompt s1 (out ++ o) cs := by
  rw [loop_cons_cont _ _ _ _ _ _ _ (step_esc prompt s)]
  rw [loop_cons_cont _ _ _ _ _ _ _ (step_bracket prompt _ rfl)]
  rw [loop_cons_cont _ _ _ _ _ _ _ (step_three prompt _ rfl)]
  rw [loop_cons_cont _ _ _ _ _ _ _ h]
  simp

theorem set_mid (pre : List Int) (x v : Int) (post : List Int) (i : Nat) (h : i = pre.length) :
    (pre ++ x :: post).set i v = pre ++ v :: post := by
  subst h; simp

theorem set_set_eq (l : List Int) (u : Nat) (c : Int) (h : u + 1 < l.length) :
    (l.set u c).set (u + 1) 0 = l.take u ++ c :: 0 :: l.drop (u + 2) := by
  have h1 : l.drop u = l[u] :: l.drop (u + 1) := List.drop_eq_getElem_cons (by omega)
  have h2 : l.drop (u + 1) = l[u + 1] :: l.drop (u + 2) := List.drop_eq_getElem_cons h
  have hl : l = l.take u ++ l[u] :: l[u + 1] :: l.drop (u + 2) := by
    rw [← h2, ← h1, List.take_append_drop]
  have hp := length_pre l u (by omega)
  generalize l.take u = pre at hl hp
  generalize l.drop (u + 2) = post at hl
  generalize l[u] = x at hl
  generalize l[u + 1] = y at hl
  subst hl
  rw [set_mid pre x c (y :: post) u hp.symm]
  have e : pre ++ c :: y :: post = (pre ++ [c]) ++ y :: post := by simp
  rw [e, set_mid (pre ++ [c]) y 0 post (u + 1) (by simp [hp])]
  simp

theorem cstring_split (t r : List Int) (ht : ∀ c ∈ t, c ≠ 0) : cstring (t ++ 0 :: r) = some t := by
  unfold cstring
  have hmem : (0 : Int) ∈ t ++ 0 :: r := by simp
  rw [if_pos hmem]
  congr 1
  rw [List.takeWhile_append_of_pos (by simpa using ht)]
  simp

theorem cstring_of_take (l : List Int) (n : Nat) (t : List Int) (h0 : l[n]? = some 0)
    (ht : l.take n = t) (hne : ∀ c ∈ t, c ≠ 0) : cstring l = some t := by
  have hn : n < l.length := by
    rcases Nat.lt_or_ge n l.length with h | h
    · exact h
    · rw [List.getElem?_eq_none h] at h0; cases h0
  have e : l = t ++ 0 :: l.drop (n + 1) := by
    have h1 : l.drop n = l[n] :: l.drop (n + 1) := List.drop_eq_getElem_cons hn
    rw [List.getElem?_eq_getElem hn] at h0
    injection h0 with h0
    rw [← ht, ← h0, ← h1, List.take_append_drop]
  rw [e]
  exact cstring_split t _ hne

theorem loop_printables (prompt : List Int) (s : List Int) :
    ∀ (st : State) (out : List Emit) (rest : List Int),
      st.mode = .NORM → st.cursor = st.used → st.used + s.length < st.buf.length →
      (∀ c ∈ s, 0x20 ≤ c ∧ c ≤ 0x7e) →
      ∃ st1, loop prompt st out (s ++ rest) = loop prompt st1 (out ++ s.map Emit.ch) rest ∧
        st1.mode = .NORM ∧ st1.cursor = st1.used ∧ st1.used = st.used + s.length ∧
        st1.buf.take st1.used = st.buf.take st.used ++ s ∧
        (s ≠ [] → st1.buf[st1.used]? = some 0) ∧ (s = [] → st1 = st) ∧
        st1.buf.length = st.buf.length := by
  induction s with
  | nil =>
    intro st out rest hm hcu _ _
    exact ⟨st, by simp, hm, hcu, by simp, by simp, by simp, fun _ => rfl, rfl⟩
  | cons c s1 ih =>
    intro st out rest hm hcu hlen hs
    have hc := hs c (by simp)
    have hlen1 : st.used + (s1.length + 1) < st.buf.length := by simpa using hlen
    have hstep := step_append prompt st c hm hc.1 (by omega) hcu (by omega)
    rw [set_set_eq st.buf st.cursor c (by omega)] at hstep
    obtain ⟨st1, h1, h2, h3, h4, h5, h6, h7, h8⟩ :=
      ih { st with
            recv := c
            buf := st.buf.take st.cursor ++ c :: 0 :: st.buf.drop (st.cursor + 2)
            cursor := st.cursor + 1
            used := st.used + 1 }
        (out ++ [Emit.ch c]) rest hm (by simp [hcu]) (by simp; omega)
        (fun d hd => hs d (by simp [hd]))
    refine ⟨st1, ?_, h2, h3, ?_, ?_, ?_, by simp, ?_⟩
    · rw [List.cons_append, loop_cons_cont _ _ _ _ _ _ _ hstep, h1]
      simp
    · rw [h4]; simp; omega
    · rw [h5]
      have hp := length_pre st.buf st.cursor (by omega)
      simp only
      rw [show st.used + 1 = (st.buf.take st.cursor ++ [c]).length by
        rw [List.length_append, hp, hcu]; rfl]
      rw [show st.buf.take st.cursor ++ c :: 0 :: st.buf.drop (st.cursor + 2)
            = (st.buf.take st.cursor ++ [c]) ++ 0 :: st.buf.drop (st.cursor + 2) by simp]
      rw [List.take_left]
      simp [hcu]
    · intro _
      rcases s1 with _ | ⟨d, s2⟩
      · rw [h7 rfl]
        simp only
        rw [show st.buf.take st.cursor ++ c :: 0 :: st.buf.drop (st.cursor + 2)
            = (st.buf.take st.cursor ++ [c]) ++ 0 :: st.buf.drop (st.cursor + 2) by simp]
        exact getElem?_mid_of_eq _ _ _ _ (by
          rw [List.length_append, length_pre st.buf st.cursor (by omega), hcu]; rfl)
      · exact h6 (by simp)
    · rw [h8]; simp; omega


/-- C1: a line of printable characters shorter than `capacity - 1`, typed into a
fresh `readline` and followed by Return, is returned as typed. -/
theorem C1_printable_line_returned (buf prompt s : List Int) (hcap : 2 ≤ buf.length)
    (hs : ∀ c ∈ s, 0x20 ≤ c ∧ c ≤ 0x7e) (hlen : s.length < buf.length - 1) :
    ∃ st out, readline buf prompt (s ++ [0x0d]) = .returned st out [] ∧
      st.buf.take (s.length + 1) = s ++ [0] ∧ st.cursor = s.length ∧ st.used = s.length ∧
      cstring st.buf = some s := by
  have hpos : 0 < buf.length := by omega
  have hst : store buf 0 0 = some (buf.set 0 0) := by
    rw [store, if_pos hpos]
  obtain ⟨st1, h1, h2, h3, h4, h5, h6, h7, h8⟩ :=
    loop_printables prompt s (fresh (buf.set 0 0)) (printf_prompt prompt) [0x0d] rfl rfl
      (by show 0 + s.length < (buf.set 0 0).length
          rw [List.length_set]; omega) hs
  have hu : st1.used = s.length := by simpa [fresh] using h4
  have ht : st1.buf.take s.length = s := by
    rw [← hu, h5]; simp [fresh]
  have h0 : st1.buf[s.length]? = some 0 := by
    rcases s with _ | ⟨c, s2⟩
    · rw [h7 rfl]
      have : 0 < buf.length := by omega
      simp [fresh, this]
    · rw [← hu]; exact h6 (by simp)
  have hsl : s.length < st1.buf.length := by
    rcases Nat.lt_or_ge s.length st1.buf.length with h | h
    · exact h
    · rw [List.getElem?_eq_none h] at h0; cases h0
  refine ⟨{ st1 with recv := 0x0d }, printf_prompt prompt ++ s.map Emit.ch ++ [Emit.ch 0x0a],
    ?_, ?_, ?_, hu, ?_⟩
  · rw [readline, hst]
    simp only
    rw [h1, loop_cons_ret _ _ _ _ _ _ _ (step_return prompt st1 h2)]
  · show st1.buf.take (s.length + 1) = s ++ [0]
    rw [take_succ_eq _ _ hsl, ht]
    rw [List.getElem?_eq_getElem hsl] at h0
    injection h0 with h0
    rw [h0]
  · show st1.cursor = s.length
    rw [h3, hu]
  · show cstring st1.buf = some s
    refine cstring_of_take _ _ _ h0 ht ?_
    intro c hc
    have := hs c hc
    omega

theorem C1_printable_line_returned_witness :
    (2 ≤ [9, 9, 9, 9].length ∧ (∀ c ∈ [0x68, 0x69], (0x20 : Int) ≤ c ∧ c ≤ 0x7e) ∧
      [(0x68 : Int), 0x69].length < [9, 9, 9, 9].length - 1) ∧
    ∃ st out, readline [9, 9, 9, 9] [0x3e, 0x20] ([0x68, 0x69] ++ [0x0d]) = .returned st out [] ∧
      st.buf.take ([(0x68 : Int), 0x69].length + 1) = [0x68, 0x69] ++ [0] ∧
      st.cursor = [(0x68 : Int), 0x69].length ∧ st.used = [(0x68 : Int), 0x69].length ∧
      cstring st.buf = some [0x68, 0x69] :=
  ⟨⟨by decide, by decide, by decide⟩,
    C1_printable_line_returned [9, 9, 9, 9] [0x3e, 0x20] [0x68, 0x69] (by decide) (by decide)
      (by decide)⟩

/-- C2: evaluated on capacity 8 with the input "abcd", ESC [ H, "X", Return.  On an
array that held only nulls the line returned is "Xabcd"; on an array that still
holds the earlier line "blinky" the insertion leaves no null at index `used`,
and the C string returned is "Xabcdy". -/
theorem C2_insert_leaves_line_unterminated :
    (∃ st out, readline (List.replicate 8 0) (codes "> ") (codes "abcd\x1b[HX\x0d")
        = .returned st out [] ∧ st.used = 5 ∧ st.buf[st.used]? = some 0 ∧
        cstring st.buf = some (codes "Xabcd")) ∧
    (∃ st out, readline (codes "blinky\x00\x00") (codes "> ") (codes "abcd\x1b[HX\x0d")
        = .returned st out [] ∧ st.used = 5 ∧ st.buf[st.used]? = some 0x79 ∧
        cstring st.buf = some (codes "Xabcdy")) :=
  ⟨⟨_, _, rfl, rfl, rfl, rfl⟩, ⟨_, _, rfl, rfl, rfl, rfl⟩⟩

/-- C3: evaluated on capacity 4 with the input "abc", ESC [ H, "X": the insertion is
let through because only `cursor` is compared with `bufsz - 1`, and `used`
becomes 4, the size of the array; a further ESC [ H, "Y" calls `shiftright`
with that `used`, which writes `buf[4]`.  Without any access outside the
array, capacity 3 and ESC [ C, "a", ESC [ H, "x", "y" reach `used = 3`. -/
theorem C3_used_reaches_capacity :
    (∃ st out, readline [0, 0, 0, 0] (codes "> ") (codes "abc\x1b[HX") = .waiting st out ∧
        st.buf = codes "Xabc" ∧ st.used = 4 ∧ st.buf.length = 4) ∧
    readline [0, 0, 0, 0] (codes "> ") (codes "abc\x1b[HX\x1b[HY") = .fault ∧
    (∃ st out, readline [0, 0, 0] (codes "> ") (codes "\x1b[Ca\x1b[Hxy") = .waiting st out ∧
        Emit.unknown ∉ out ∧ st.used = 3 ∧ st.buf.length = 3) :=
  ⟨⟨_, _, rfl, rfl, rfl, rfl⟩, rfl, ⟨_, _, rfl, by decide, rfl, rfl⟩⟩

/-- C4: evaluated on capacity 8 with the input ESC [ C on a fresh line: the right
arrow compares `cursor` with `bufsz - 1` and not with `used`, so the cursor
moves to 1 while `used` is 0. -/
theorem C4_right_arrow_passes_used :
    ∃ st out, readline (List.replicate 8 0) (codes "> ") [0x1b, 0x5b, 0x43] = .waiting st out ∧
      st.cursor = 1 ∧ st.used = 0 ∧ st.mode = .NORM :=
  ⟨_, _, rfl, rfl, rfl, rfl⟩

/-- C5: in Normal mode with `cursor = used = capacity - 1` a printable character
changes neither buffer, cursor nor used, leaves the mode Normal and writes the
bell alone; with capacity 4, "abcd" then Return rings the bell on 'd' and
returns "abc". -/
theorem C5_full_buffer_rejects_printable :
    (∀ (prompt : List Int) (s : State) (c : Int), s.mode = .NORM → s.cursor = s.used →
        s.cursor + 1 = s.buf.length → 0x20 ≤ c ∧ c ≤ 0x7e →
        step prompt s c = .cont { s with recv := c } bell) ∧
    (∀ (b0 b1 b2 b3 : Int) (prompt : List Int),
        ∃ st, readline [b0, b1, b2, b3] prompt (codes "abcd\x0d")
            = .returned st (printf_prompt prompt ++ lit "abc" ++ bell ++ lit "\n") [] ∧
          st.buf = codes "abc\x00" ∧ cstring st.buf = some (codes "abc")) := by
  constructor
  · intro prompt s c hm _ hfull hc
    refine step_overflow prompt s c hm hc.1 (by omega) ?_
    rw [decSize_pos _ (by omega)]; omega
  · intro b0 b1 b2 b3 prompt
    refine ⟨{ buf := codes "abc\x00", cursor := 3, used := 3, recv := 0x0d, mode := .NORM },
      ?_, rfl, rfl⟩
    have h : readline [b0, b1, b2, b3] prompt (codes "abcd\x0d")
        = .returned { buf := codes "abc\x00", cursor := 3, used := 3, recv := 0x0d, mode := .NORM }
            (printf_prompt prompt ++ [Emit.ch 0x61] ++ [Emit.ch 0x62] ++ [Emit.ch 0x63] ++ bell
              ++ [Emit.ch 0x0a]) [] := rfl
    rw [h]
    simp [lit]

theorem C5_full_buffer_rejects_printable_witness :
    step [0x3e, 0x20] { buf := [0x61, 0x62, 0x63, 0], cursor := 3, used := 3, recv := 0x63,
                        mode := .NORM } 0x64
      = .cont { buf := [0x61, 0x62, 0x63, 0], cursor := 3, used := 3, recv := 0x64,
                mode := .NORM } bell :=
  C5_full_buffer_rejects_printable.1 [0x3e, 0x20]
    { buf := [0x61, 0x62, 0x63, 0], cursor := 3, used := 3, recv := 0x63, mode := .NORM } 0x64
    rfl rfl rfl (by decide)


theorem take_set_self (l : List Int) (n : Nat) (a : Int) : (l.set n a).take n = l.take n := by
  rw [List.set_take]
  exact List.set_eq_of_length_le (by rw [List.length_take]; omega)

/-- C6: in Normal mode with `0 < cursor <= used <= capacity - 1`, Backspace removes
the character at index `cursor - 1`: the new text is `old[0..cursor-1)` followed
by `old[cursor..used)`, it is null-terminated at the new `used`, and cursor and
used each go down by one (the terminator at the old `used` is not needed for
this); with capacity 8, "ab", Backspace, "c", Return returns "ac". -/
theorem C6_backspace_removes_before_cursor :
    (∀ (prompt : List Int) (s : State), s.mode = .NORM → 0 < s.cursor → s.cursor ≤ s.used →
        s.used < s.buf.length →
        ∃ s1 out, step prompt s 8 = .cont s1 out ∧ s1.mode = .NORM ∧
          s1.cursor + 1 = s.cursor ∧ s1.used + 1 = s.used ∧
          s1.buf.take s1.used
            = s.buf.take (s.cursor - 1) ++ (s.buf.drop s.cursor).take (s.used - s.cursor) ∧
          s1.buf[s1.used]? = some 0) ∧
    (∀ (b0 b1 b2 b3 b4 b5 b6 b7 : Int) (prompt : List Int),
        ∃ st out, readline [b0, b1, b2, b3, b4, b5, b6, b7] prompt (codes "ab\x08c\x0d")
            = .returned st out [] ∧
          st.used = 2 ∧ cstring st.buf = some (codes "ac")) := by
  constructor
  · intro prompt s hm h0 hcu hlen
    rcases Nat.eq_or_lt_of_le hcu with h | h
    · refine ⟨_, _, step_backspace_end prompt s hm h0 h (by omega), hm, ?_, ?_, ?_, ?_⟩
      · show s.cursor - 1 + 1 = s.cursor
        omega
      · show s.used - 1 + 1 = s.used
        omega
      · show (s.buf.set (s.cursor - 1) 0).take (s.used - 1) = _
        rw [h, Nat.sub_self, List.take_zero, List.append_nil]
        exact take_set_self _ _ _
      · show (s.buf.set (s.cursor - 1) 0)[s.used - 1]? = some 0
        rw [h]
        rw [List.getElem?_set_eq_of_lt]
        omega
    · refine ⟨_, _, step_backspace_mid prompt s hm h0 h hlen, hm, ?_, ?_, ?_, ?_⟩
      · show s.cursor - 1 + 1 = s.cursor
        omega
      · show s.used - 1 + 1 = s.used
        omega
      · show (s.buf.take (s.cursor - 1)
            ++ ((s.buf.drop s.cursor).take (s.used - s.cursor) ++ 0 :: s.buf.drop s.used)).take
              (s.used - 1) = _
        rw [← List.append_assoc]
        refine List.take_left' ?_
        rw [List.length_append, length_pre _ _ (by omega), List.length_take, List.length_drop]
        omega
      · show (s.buf.take (s.cursor - 1)
            ++ ((s.buf.drop s.cursor).take (s.used - s.cursor) ++ 0 :: s.buf.drop s.used))[
              s.used - 1]? = some 0
        rw [← List.append_assoc]
        refine getElem?_mid_of_eq _ _ _ _ ?_
        rw [List.length_append, length_pre _ _ (by omega), List.length_take, List.length_drop]
        omega
  · intro b0 b1 b2 b3 b4 b5 b6 b7 prompt
    exact ⟨{ buf := [0x61, 0x63, 0, b3, b4, b5, b6, b7], cursor := 2, used := 2, recv := 0x0d,
             mode := .NORM }, _, rfl, rfl, rfl⟩


theorem C6_backspace_removes_before_cursor_witness :
    ∃ s1 out, step [0x3e, 0x20]
        { buf := [0x61, 0x62, 0x63, 0, 9, 9, 9, 9], cursor := 2, used := 3, recv := 0x44,
          mode := .NORM } 8 = .cont s1 out ∧ s1.mode = .NORM ∧
      s1.cursor + 1 = 2 ∧ s1.used + 1 = 3 ∧
      s1.buf.take s1.used
        = [0x61, 0x62, 0x63, 0, 9, 9, 9, 9].take (2 - 1)
          ++ ([0x61, 0x62, 0x63, 0, 9, 9, 9, 9].drop 2).take (3 - 2) ∧
      s1.buf[s1.used]? = some 0 :=
  C6_backspace_removes_before_cursor.1 [0x3e, 0x20]
    { buf := [0x61, 0x62, 0x63, 0, 9, 9, 9, 9], cursor := 2, used := 3, recv := 0x44,
      mode := .NORM } rfl (by decide) (by decide) (by decide)

/-- C7: in Normal mode with `cursor < used <= capacity - 2`, a printable character
`c` is inserted at the cursor: the first `used + 1` characters become
`old[0..cursor)`, `c`, `old[cursor..used)`, cursor and used each go up by one
and the mode stays Normal. -/
theorem C7_insert_at_cursor (prompt : List Int) (s : State) (c : Int) (hm : s.mode = .NORM)
    (hcu : s.cursor < s.used) (hroom : s.used + 2 ≤ s.buf.length) (hc : 0x20 ≤ c ∧ c ≤ 0x7e) :
    ∃ s1 out, step prompt s c = .cont s1 out ∧ s1.mode = .NORM ∧
      s1.cursor = s.cursor + 1 ∧ s1.used = s.used + 1 ∧
      s1.buf.take (s.used + 1)
        = s.buf.take s.cursor ++ c :: (s.buf.drop s.cursor).take (s.used - s.cursor) := by
  refine ⟨_, _, step_insert prompt s c hm hc.1 (by omega) hcu (by omega), hm, rfl, rfl, ?_⟩
  show (s.buf.take s.cursor ++ c :: ((s.buf.drop s.cursor).take (s.used - s.cursor)
      ++ s.buf.drop (s.used + 1))).take (s.used + 1) = _
  have e : s.buf.take s.cursor ++ c :: ((s.buf.drop s.cursor).take (s.used - s.cursor)
        ++ s.buf.drop (s.used + 1))
      = (s.buf.take s.cursor ++ c :: (s.buf.drop s.cursor).take (s.used - s.cursor))
        ++ s.buf.drop (s.used + 1) := by
    simp only [List.append_assoc, List.cons_append]
  rw [e]
  refine List.take_left' ?_
  rw [List.length_append, length_pre _ _ (by omega), List.length_cons, List.length_take,
    List.length_drop]
  omega

theorem C7_insert_at_cursor_witness :
    ((mode_t.NORM = mode_t.NORM) ∧ 1 < 3 ∧ 3 + 2 ≤ [(0x61 : Int), 0x62, 0x63, 0, 9, 9, 9, 9].length ∧
      ((0x20 : Int) ≤ 0x58 ∧ (0x58 : Int) ≤ 0x7e)) ∧
    ∃ s1 out, step [0x3e, 0x20]
        { buf := [0x61, 0x62, 0x63, 0, 9, 9, 9, 9], cursor := 1, used := 3, recv := 0x44,
          mode := .NORM } 0x58 = .cont s1 out ∧ s1.mode = .NORM ∧
      s1.cursor = 1 + 1 ∧ s1.used = 3 + 1 ∧
      s1.buf.take (3 + 1)
        = [0x61, 0x62, 0x63, 0, 9, 9, 9, 9].take 1
          ++ 0x58 :: ([0x61, 0x62, 0x63, 0, 9, 9, 9, 9].drop 1).take (3 - 1) :=
  ⟨⟨rfl, by decide, by decide, by decide⟩,
    C7_insert_at_cursor [0x3e, 0x20]
      { buf := [0x61, 0x62, 0x63, 0, 9, 9, 9, 9], cursor := 1, used := 3, recv := 0x44,
        mode := .NORM } 0x58 rfl (by decide) (by decide) (by decide)⟩

/-- C8: from a Normal-mode state with `cursor <= used <= capacity - 1`, the keys
ESC [ 3 ~ end in Normal mode.  With `cursor < used` they remove the character
at index `cursor`: the new text is `old[0..cursor)` followed by
`old[cursor+1..used)`, null-terminated, `used` one less, cursor unchanged.
With `cursor = used` they change neither buffer, cursor nor used and write the
bell alone.  (The terminator at the old `used` is not needed for this.) -/
theorem C8_delete_removes_at_cursor (prompt : List Int) (s : State) (_hm : s.mode = .NORM)
    (hcu : s.cursor ≤ s.used) (hlen : s.used < s.buf.length) :
    ∃ s1 out, loop prompt s [] [0x1b, 0x5b, 0x33, 0x7e] = .waiting s1 out ∧ s1.mode = .NORM ∧
      (s.cursor < s.used →
        s1.buf.take s1.used
          = s.buf.take s.cursor ++ (s.buf.drop (s.cursor + 1)).take (s.used - (s.cursor + 1)) ∧
        s1.buf[s1.used]? = some 0 ∧ s1.used + 1 = s.used ∧ s1.cursor = s.cursor) ∧
      (s.cursor = s.used →
        s1.buf = s.buf ∧ s1.cursor = s.cursor ∧ s1.used = s.used ∧ out = bell) := by
  rcases Nat.eq_or_lt_of_le hcu with h | h
  · have hs := step_delete_end prompt { s with recv := 0x33, mode := .ESC3 } rfl h
    have hl := loop_delete_seq prompt s _ [] _ [] hs
    rw [loop_nil, List.nil_append] at hl
    exact ⟨_, _, hl, rfl, fun h' => absurd h (Nat.ne_of_lt h'), fun _ => ⟨rfl, rfl, rfl, rfl⟩⟩
  · have hs := step_delete prompt { s with recv := 0x33, mode := .ESC3 } rfl h hlen
    have hl := loop_delete_seq prompt s _ [] _ [] hs
    rw [loop_nil, List.nil_append] at hl
    refine ⟨_, _, hl, rfl, fun _ => ⟨?_, ?_, ?_, rfl⟩, fun h' => absurd h' (Nat.ne_of_lt h)⟩
    · show (s.buf.take s.cursor ++ ((s.buf.drop (s.cursor + 1)).take (s.used - s.cursor - 1)
          ++ 0 :: s.buf.drop s.used)).take (s.used - 1) = _
      rw [← List.append_assoc, Nat.sub_sub]
      refine List.take_left' ?_
      rw [List.length_append, length_pre _ _ (by omega), List.length_take, List.length_drop]
      omega
    · show (s.buf.take s.cursor ++ ((s.buf.drop (s.cursor + 1)).take (s.used - s.cursor - 1)
          ++ 0 :: s.buf.drop s.used))[s.used - 1]? = some 0
      rw [← List.append_assoc]
      refine getElem?_mid_of_eq _ _ _ _ ?_
      rw [List.length_append, length_pre _ _ (by omega), List.length_take, List.length_drop]
      omega
    · show s.used - 1 + 1 = s.used
      omega

theorem C8_delete_removes_at_cursor_witness :
    ((mode_t.NORM = mode_t.NORM) ∧ 1 ≤ 3 ∧ 3 < [(0x61 : Int), 0x62, 0x63, 0, 9, 9, 9, 9].length) ∧
    ∃ s1 out, loop [0x3e, 0x20]
        { buf := [0x61, 0x62, 0x63, 0, 9, 9, 9, 9], cursor := 1, used := 3, recv := 0x44,
          mode := .NORM } [] [0x1b, 0x5b, 0x33, 0x7e] = .waiting s1 out ∧ s1.mode = .NORM ∧
      (1 < 3 →
        s1.buf.take s1.used
          = [0x61, 0x62, 0x63, 0, 9, 9, 9, 9].take 1
            ++ ([0x61, 0x62, 0x63, 0, 9, 9, 9, 9].drop (1 + 1)).take (3 - (1 + 1)) ∧
        s1.buf[s1.used]? = some 0 ∧ s1.used + 1 = 3 ∧ s1.cursor = 1) ∧
      (1 = 3 →
        s1.buf = [0x61, 0x62, 0x63, 0, 9, 9, 9, 9] ∧ s1.cursor = 1 ∧ s1.used = 3 ∧ out = bell) :=
  ⟨⟨rfl, by decide, by decide⟩,
    C8_delete_removes_at_cursor [0x3e, 0x20]
      { buf := [0x61, 0x62, 0x63, 0, 9, 9, 9, 9], cursor := 1, used := 3, recv := 0x44,
        mode := .NORM } rfl (by decide) (by decide)⟩


theorem insert_then_remove (l : List Int) (i u : Nat) (c : Int) (hi : i < u)
    (hu : u + 1 < l.length) :
    (l.take i ++ c :: ((l.drop i).take (u - i) ++ l.drop (u + 1))).take (i + 1)
        ++ (((l.take i ++ c :: ((l.drop i).take (u - i) ++ l.drop (u + 1))).drop
              (i + 1 + 1)).take (u + 1 - (i + 1) - 1)
            ++ 0 :: (l.take i ++ c :: ((l.drop i).take (u - i) ++ l.drop (u + 1))).drop (u + 1))
      = l.take i ++ c :: ((l.drop (i + 1)).take (u - (i + 1)) ++ 0 :: l.drop (u + 1)) := by
  have hil : i < l.length := by omega
  have hp := length_pre l i (by omega)
  have e : (l.drop i).take (u - i) = l[i] :: ((l.drop (i + 1)).take (u - (i + 1))) := by
    rw [List.drop_eq_getElem_cons hil]
    have : u - i = (u - (i + 1)) + 1 := by omega
    rw [this, List.take_succ_cons]
  have hm : ((l.drop (i + 1)).take (u - (i + 1))).length = u - (i + 1) := by
    rw [List.length_take, List.length_drop]; omega
  rw [e]
  generalize l.take i = pre at hp
  generalize (l.drop (i + 1)).take (u - (i + 1)) = mid at hm
  generalize l.drop (u + 1) = post
  generalize l[i] = a
  have e1 : (pre ++ c :: (a :: mid ++ post)).take (i + 1) = pre ++ [c] := by
    rw [show pre ++ c :: (a :: mid ++ post) = (pre ++ [c]) ++ (a :: mid ++ post) by simp]
    exact List.take_left' (by simp [hp])
  have e2 : (pre ++ c :: (a :: mid ++ post)).drop (i + 1 + 1) = mid ++ post := by
    rw [show pre ++ c :: (a :: mid ++ post) = (pre ++ [c, a]) ++ (mid ++ post) by simp]
    exact List.drop_left' (by simp [hp])
  have e3 : (pre ++ c :: (a :: mid ++ post)).drop (u + 1) = post := by
    rw [show pre ++ c :: (a :: mid ++ post) = (pre ++ c :: a :: mid) ++ post by simp]
    exact List.drop_left' (by simp [hp, hm]; omega)
  have e4 : (mid ++ post).take (u + 1 - (i + 1) - 1) = mid :=
    List.take_left' (by rw [hm]; omega)
  rw [e1, e2, e3, e4]
  simp

/-- C9 (as stated, refuted): on "ab" with the cursor at 0, inserting 'X' and then
ESC [ 3 ~ gives "Xb" with the cursor at 1, not "ab" with the cursor at 0. -/
theorem C9_insert_delete_not_identity :
    ∃ s1 out, loop [0x3e, 0x20]
        { buf := [0x61, 0x62, 0, 0, 0, 0, 0, 0], cursor := 0, used := 2, recv := 0x48,
          mode := .NORM } [] [0x58, 0x1b, 0x5b, 0x33, 0x7e] = .waiting s1 out ∧
      s1.buf = [0x58, 0x62, 0, 0, 0, 0, 0, 0] ∧ s1.cursor = 1 ∧ s1.used = 2 ∧
      s1.buf ≠ [0x61, 0x62, 0, 0, 0, 0, 0, 0] ∧ s1.cursor ≠ 0 :=
  ⟨_, _, rfl, rfl, rfl, rfl, by decide, by decide⟩

/-- C9 (amended): in Normal mode with `cursor = i < used <= capacity - 2`, inserting a
printable `c` and then pressing Delete (ESC [ 3 ~) removes the character that
followed the inserted one: the text becomes `old[0..i)`, `c`, `old[i+1..used)`,
null-terminated, `used` is the original one and the cursor is `i + 1`. -/
theorem C9_insert_then_delete_replaces (prompt : List Int) (s : State) (c : Int)
    (hm : s.mode = .NORM) (hcu : s.cursor < s.used) (hroom : s.used + 2 ≤ s.buf.length)
    (hc : 0x20 ≤ c ∧ c ≤ 0x7e) :
    ∃ s1 out, loop prompt s [] [c, 0x1b, 0x5b, 0x33, 0x7e] = .waiting s1 out ∧
      s1.mode = .NORM ∧ s1.cursor = s.cursor + 1 ∧ s1.used = s.used ∧
      s1.buf.take s.used
        = s.buf.take s.cursor ++ c :: (s.buf.drop (s.cursor + 1)).take (s.used - (s.cursor + 1)) ∧
      s1.buf[s.used]? = some 0 := by
  have h1 := step_insert prompt s c hm hc.1 (by omega) hcu (by omega)
  have h2 := step_delete prompt
    { s with recv := 0x33, mode := .ESC3,
             buf := s.buf.take s.cursor
               ++ c :: ((s.buf.drop s.cursor).take (s.used - s.cursor) ++ s.buf.drop (s.used + 1)),
             cursor := s.cursor + 1, used := s.used + 1 }
    rfl (by simp; omega) (by simp; omega)
  simp only [insert_then_remove s.buf s.cursor s.used c hcu (by omega)] at h2
  have hl := loop_cons_cont prompt s _ [] _ c [0x1b, 0x5b, 0x33, 0x7e] h1
  rw [loop_delete_seq prompt _ _ _ _ [] h2, loop_nil] at hl
  refine ⟨_, _, hl, rfl, rfl, rfl, ?_, ?_⟩
  · show (s.buf.take s.cursor ++ c :: ((s.buf.drop (s.cursor + 1)).take (s.used - (s.cursor + 1))
        ++ 0 :: s.buf.drop (s.used + 1))).take s.used = _
    rw [show s.buf.take s.cursor ++ c :: ((s.buf.drop (s.cursor + 1)).take
          (s.used - (s.cursor + 1)) ++ 0 :: s.buf.drop (s.used + 1))
        = (s.buf.take s.cursor ++ c :: (s.buf.drop (s.cursor + 1)).take (s.used - (s.cursor + 1)))
          ++ 0 :: s.buf.drop (s.used + 1) by simp]
    refine List.take_left' ?_
    rw [List.length_append, length_pre _ _ (by omega), List.length_cons, List.length_take,
      List.length_drop]
    omega
  · show (s.buf.take s.cursor ++ c :: ((s.buf.drop (s.cursor + 1)).take (s.used - (s.cursor + 1))
        ++ 0 :: s.buf.drop (s.used + 1)))[s.used]? = some 0
    rw [show s.buf.take s.cursor ++ c :: ((s.buf.drop (s.cursor + 1)).take
          (s.used - (s.cursor + 1)) ++ 0 :: s.buf.drop (s.used + 1))
        = (s.buf.take s.cursor ++ c :: (s.buf.drop (s.cursor + 1)).take (s.used - (s.cursor + 1)))
          ++ 0 :: s.buf.drop (s.used + 1) by simp]
    refine getElem?_mid_of_eq _ _ _ _ ?_
    rw [List.length_append, length_pre _ _ (by omega), List.length_cons, List.length_take,
      List.length_drop]
    omega


theorem C9_insert_then_delete_replaces_witness :
    ((mode_t.NORM = mode_t.NORM) ∧ 0 < 2 ∧ 2 + 2 ≤ [(0x61 : Int), 0x62, 0, 9, 9, 9, 9, 9].length ∧
      ((0x20 : Int) ≤ 0x58 ∧ (0x58 : Int) ≤ 0x7e)) ∧
    ∃ s1 out, loop [0x3e, 0x20]
        { buf := [0x61, 0x62, 0, 9, 9, 9, 9, 9], cursor := 0, used := 2, recv := 0x48,
          mode := .NORM } [] [0x58, 0x1b, 0x5b, 0x33, 0x7e] = .waiting s1 out ∧
      s1.mode = .NORM ∧ s1.cursor = 0 + 1 ∧ s1.used = 2 ∧
      s1.buf.take 2
        = [0x61, 0x62, 0, 9, 9, 9, 9, 9].take 0
          ++ 0x58 :: ([0x61, 0x62, 0, 9, 9, 9, 9, 9].drop (0 + 1)).take (2 - (0 + 1)) ∧
      s1.buf[2]? = some 0 :=
  ⟨⟨rfl, by decide, by decide, by decide⟩,
    C9_insert_then_delete_replaces [0x3e, 0x20]
      { buf := [0x61, 0x62, 0, 9, 9, 9, 9, 9], cursor := 0, used := 2, recv := 0x48,
        mode := .NORM } 0x58 rfl (by decide) (by decide) (by decide)⟩

/-- C10 (as stated, refuted): in Escape mode the byte `]` (0x5d), which is not among
`[ H F D C 3`, prints nothing and leaves the mode Escape; ESC (0x1b) received in
Escape or in EscapeBracket3 mode prints nothing either and gives Escape mode. -/
theorem C10_unlisted_bytes_not_diagnosed :
    (0x5d : Int) ∉ [0x5b, 0x48, 0x46, 0x44, 0x43, 0x33] ∧
    step [0x3e, 0x20]
        { buf := [0, 0, 0, 0, 0, 0, 0, 0], cursor := 0, used := 0, recv := 0x1b, mode := .ESC } 0x5d
      = .cont { buf := [0, 0, 0, 0, 0, 0, 0, 0], cursor := 0, used := 0, recv := 0x5d,
                mode := .ESC } [] ∧
    step [0x3e, 0x20]
        { buf := [0, 0, 0, 0, 0, 0, 0, 0], cursor := 0, used := 0, recv := 0x1b, mode := .ESC } 0x1b
      = .cont { buf := [0, 0, 0, 0, 0, 0, 0, 0], cursor := 0, used := 0, recv := 0x1b,
                mode := .ESC } [] ∧
    step [0x3e, 0x20]
        { buf := [0, 0, 0, 0, 0, 0, 0, 0], cursor := 0, used := 0, recv := 0x33, mode := .ESC3 } 0x1b
      = .cont { buf := [0, 0, 0, 0, 0, 0, 0, 0], cursor := 0, used := 0, recv := 0x1b,
                mode := .ESC } [] :=
  ⟨by decide, rfl, rfl, rfl⟩

/-- C10 (amended): a byte received in Escape mode other than ESC, `]` and the
recognised `[ H F D C 3`, and a byte received in EscapeBracket3 mode other than
`~` and ESC, prints the diagnostic of its mode, resets the mode to Normal,
leaves buffer, cursor and used unchanged and does not return; ESC received in
any mode prints nothing and gives Escape mode; the input ESC 'Z' "hi" Return
writes the diagnostic once and returns "hi". -/
theorem C10_unrecognised_escape_diagnosed :
    (∀ (prompt : List Int) (s : State) (b : Int), s.mode = .ESC →
        b ∉ [0x1b, 0x5d, 0x5b, 0x48, 0x46, 0x44, 0x43, 0x33] →
        step prompt s b = .cont { s with recv := b, mode := .NORM } (diag b " in ESC mode\n")) ∧
    (∀ (prompt : List Int) (s : State) (b : Int), s.mode = .ESC3 → b ≠ 0x7e → b ≠ 0x1b →
        step prompt s b = .cont { s with recv := b, mode := .NORM } (diag b " in ESC3 mode\n")) ∧
    (∀ (prompt : List Int) (s : State),
        step prompt s 0x1b = .cont { s with recv := 0x1b, mode := .ESC } []) ∧
    (∀ (b0 b1 b2 : Int) (rest prompt : List Int),
        ∃ st, readline (b0 :: b1 :: b2 :: rest) prompt (codes "\x1bZhi\x0d")
            = .returned st
                (printf_prompt prompt ++ lit "Don't know how to handle 0x5a in ESC mode\n"
                  ++ lit "hi" ++ lit "\n") [] ∧
          st.used = 2 ∧ cstring st.buf = some (codes "hi")) := by
  refine ⟨?_, ?_, step_esc, ?_⟩
  · intro prompt s b hm hb
    rcases s with ⟨buf, cursor, used, r, mode⟩
    simp only at hm
    subst hm
    simp only [List.mem_cons, List.mem_singleton, List.not_mem_nil, not_or, or_false] at hb
    obtain ⟨h1, h2, h3, h4, h5, h6, h7, h8⟩ := hb
    simp [step, stepIn, h1, h2, h3, h4, h5, h6, h7, h8]
  · intro prompt s b hm hb1 hb2
    rcases s with ⟨buf, cursor, used, r, mode⟩
    simp only at hm
    subst hm
    simp [step, stepIn, hb1, hb2]
  · intro b0 b1 b2 rest prompt
    refine ⟨{ buf := 0x68 :: 0x69 :: 0 :: rest, cursor := 2, used := 2, recv := 0x0d,
              mode := .NORM }, ?_, rfl, rfl⟩
    have h : readline (b0 :: b1 :: b2 :: rest) prompt (codes "\x1bZhi\x0d")
        = .returned { buf := 0x68 :: 0x69 :: 0 :: rest, cursor := 2, used := 2, recv := 0x0d,
                      mode := .NORM }
            (printf_prompt prompt ++ [] ++ diag 0x5a " in ESC mode\n" ++ [Emit.ch 0x68]
              ++ [Emit.ch 0x69] ++ [Emit.ch 0x0a]) [] := by
      simp [readline, store, loop, step, stepIn, fresh, codes, decSize, SIZE_MAX]
    rw [h]
    have hd : diag 0x5a " in ESC mode\n" = lit "Don't know how to handle 0x5a in ESC mode\n" := by
      decide
    rw [hd]
    simp [lit]

theorem C10_unrecognised_escape_diagnosed_witness :
    step [0x3e, 0x20]
        { buf := [0, 0, 0, 0, 0, 0, 0, 0], cursor := 0, used := 0, recv := 0x1b, mode := .ESC } 0x5a
      = .cont { buf := [0, 0, 0, 0, 0, 0, 0, 0], cursor := 0, used := 0, recv := 0x5a,
                mode := .NORM } (diag 0x5a " in ESC mode\n") :=
  C10_unrecognised_escape_diagnosed.1 [0x3e, 0x20]
    { buf := [0, 0, 0, 0, 0, 0, 0, 0], cursor := 0, used := 0, recv := 0x1b, mode := .ESC } 0x5a
    rfl (by decide)

/-! ## Arrow keys, Home, End and the other keys -/

theorem step_backspace_zero (prompt : List Int) (s : State) (hm : s.mode = .NORM)
    (h0 : s.cursor = 0) : step prompt s 8 = .cont { s with recv := 8 } bell := by
  rcases s with ⟨buf, cursor, used, r, mode⟩
  simp only at hm h0
  subst hm; subst h0
  simp [step, stepIn]

theorem step_left (prompt : List Int) (s : State) (hm : s.mode = .ESC) (hp : s.recv = 0x5b) :
    step prompt s 0x44
      = if 0 < s.cursor then
          .cont { s with recv := 0x44, cursor := s.cursor - 1, mode := .NORM } (moveLeft 1)
        else .cont { s with recv := 0x44, mode := .NORM } bell := by
  rcases s with ⟨buf, cursor, used, r, mode⟩
  simp only at hm hp
  subst hm; subst hp
  simp [step, stepIn]

theorem step_right (prompt : List Int) (s : State) (hm : s.mode = .ESC) (hp : s.recv = 0x5b) :
    step prompt s 0x43
      = if s.cursor < decSize s.buf.length then
          .cont { s with recv := 0x43, cursor := s.cursor + 1, mode := .NORM } (moveRight 1)
        else .cont { s with recv := 0x43, mode := .NORM } bell := by
  rcases s with ⟨buf, cursor, used, r, mode⟩
  simp only at hm hp
  subst hm; subst hp
  simp [step, stepIn]

theorem step_unknown_esc (prompt : List Int) (s : State) (b : Int) (hm : s.mode = .ESC)
    (hb : b ∉ [0x1b, 0x5d, 0x5b, 0x48, 0x46, 0x44, 0x43, 0x33]) :
    step prompt s b = .cont { s with recv := b, mode := .NORM } (diag b " in ESC mode\n") := by
  rcases s with ⟨buf, cursor, used, r, mode⟩
  simp only at hm
  subst hm
  simp only [List.mem_cons, List.mem_singleton, List.not_mem_nil, not_or, or_false] at hb
  obtain ⟨h1, h2, h3, h4, h5, h6, h7, h8⟩ := hb
  simp [step, stepIn, h1, h2, h3, h4, h5, h6, h7, h8]

theorem step_ctrl_r (prompt : List Int) (s : State) (hm : s.mode = .NORM) :
    step prompt s 0x12
      = .cont { s with recv := 0x12 }
          ([Emit.ch 0x0d] ++ List.replicate s.buf.length (Emit.ch 0x20) ++ [Emit.ch 0x0d]
            ++ (prompt.map Emit.ch ++ fmt_s s.buf) ++ moveLeft 1000
            ++ moveRight (sizeAsInt (s.cursor + prompt.length))) := by
  rcases s with ⟨buf, cursor, used, r, mode⟩
  simp only at hm
  subst hm
  simp [step, stepIn]

theorem loop_arrow_seq (prompt : List Int) (s s1 : State) (out o : List Emit) (k : Int)
    (cs : List Int) (h : step prompt { s with recv := 0x5b, mode := .ESC } k = .cont s1 o) :
    loop prompt s out (0x1b :: 0x5b :: k :: cs) = loop prompt s1 (out ++ o) cs := by
  rw [loop_cons_cont _ _ _ _ _ _ _ (step_esc prompt s)]
  rw [loop_cons_cont _ _ _ _ _ _ _ (step_bracket prompt _ rfl)]
  rw [loop_cons_cont _ _ _ _ _ _ _ h]
  simp

/-- C11: from a Normal-mode state the up-arrow keys ESC [ A write the diagnostic
"Don't know how to handle 0x41 in ESC mode", leave buffer, cursor and used as
they were and end in Normal mode, waiting for the next key. -/
theorem C11_up_arrow_is_diagnosed (prompt : List Int) (s : State) (_hm : s.mode = .NORM) :
    loop prompt s [] [0x1b, 0x5b, 0x41]
      = .waiting { s with recv := 0x41, mode := .NORM }
          (lit "Don't know how to handle 0x41 in ESC mode\n") := by
  have h := step_unknown_esc prompt { s with recv := 0x5b, mode := .ESC } 0x41 rfl (by decide)
  rw [loop_arrow_seq prompt s _ [] _ 0x41 [] h, loop_nil]
  have hd : diag 0x41 " in ESC mode\n" = lit "Don't know how to handle 0x41 in ESC mode\n" := by
    decide
  rw [hd]
  rfl

theorem C11_up_arrow_is_diagnosed_witness :
    (mode_t.NORM = mode_t.NORM) ∧
    loop [0x3e, 0x20]
        { buf := [0x61, 0x62, 0, 9, 9, 9, 9, 9], cursor := 1, used := 2, recv := 0x62,
          mode := .NORM } [] [0x1b, 0x5b, 0x41]
      = .waiting { buf := [0x61, 0x62, 0, 9, 9, 9, 9, 9], cursor := 1, used := 2, recv := 0x41,
                   mode := .NORM }
          (lit "Don't know how to handle 0x41 in ESC mode\n") :=
  ⟨rfl, C11_up_arrow_is_diagnosed [0x3e, 0x20]
    { buf := [0x61, 0x62, 0, 9, 9, 9, 9, 9], cursor := 1, used := 2, recv := 0x62,
      mode := .NORM } rfl⟩

/-- C12: in Normal mode with the cursor at 0, Backspace leaves buffer, cursor and
used as they were, stays in Normal mode and writes the bell alone. -/
theorem C12_backspace_at_start_rejected (prompt : List Int) (s : State) (hm : s.mode = .NORM)
    (h0 : s.cursor = 0) :
    step prompt s 8 = .cont { s with recv := 8 } [Emit.ch 7] :=
  step_backspace_zero prompt s hm h0

theorem C12_backspace_at_start_rejected_witness :
    ((mode_t.NORM = mode_t.NORM) ∧ (0 : Nat) = 0) ∧
    step [0x3e, 0x20]
        { buf := [0x61, 0x62, 0, 9, 9, 9, 9, 9], cursor := 0, used := 2, recv := 0x48,
          mode := .NORM } 8
      = .cont { buf := [0x61, 0x62, 0, 9, 9, 9, 9, 9], cursor := 0, used := 2, recv := 8,
                mode := .NORM } [Emit.ch 7] :=
  ⟨⟨rfl, rfl⟩, C12_backspace_at_start_rejected [0x3e, 0x20]
    { buf := [0x61, 0x62, 0, 9, 9, 9, 9, 9], cursor := 0, used := 2, recv := 0x48,
      mode := .NORM } rfl rfl⟩

/-- C13: from a Normal-mode state (capacity at least 1) the keys ESC [ D take one
off the cursor when it is above 0 and otherwise ring the bell, and the keys
ESC [ C add one to the cursor when it is below `capacity - 1` and otherwise
ring the bell; buffer and used stay as they were and the mode ends Normal. -/
theorem C13_arrows_move_cursor (prompt : List Int) (s : State) (_hm : s.mode = .NORM)
    (hcap : 0 < s.buf.length) :
    (0 < s.cursor →
      loop prompt s [] [0x1b, 0x5b, 0x44]
        = .waiting { s with recv := 0x44, cursor := s.cursor - 1, mode := .NORM } (moveLeft 1)) ∧
    (s.cursor = 0 →
      loop prompt s [] [0x1b, 0x5b, 0x44]
        = .waiting { s with recv := 0x44, mode := .NORM } bell) ∧
    (s.cursor + 1 < s.buf.length →
      loop prompt s [] [0x1b, 0x5b, 0x43]
        = .waiting { s with recv := 0x43, cursor := s.cursor + 1, mode := .NORM } (moveRight 1)) ∧
    (s.buf.length ≤ s.cursor + 1 →
      loop prompt s [] [0x1b, 0x5b, 0x43]
        = .waiting { s with recv := 0x43, mode := .NORM } bell) := by
  have hl := step_left prompt { s with recv := 0x5b, mode := .ESC } rfl rfl
  have hr := step_right prompt { s with recv := 0x5b, mode := .ESC } rfl rfl
  have hd : decSize s.buf.length = s.buf.length - 1 := decSize_pos _ hcap
  simp only [hd] at hr
  refine ⟨fun h => ?_, fun h => ?_, fun h => ?_, fun h => ?_⟩
  · rw [if_pos h] at hl
    rw [loop_arrow_seq prompt s _ [] _ 0x44 [] hl, loop_nil]; rfl
  · rw [if_neg (show ¬ 0 < s.cursor by omega)] at hl
    rw [loop_arrow_seq prompt s _ [] _ 0x44 [] hl, loop_nil]; rfl
  · rw [if_pos (show s.cursor < s.buf.length - 1 by omega)] at hr
    rw [loop_arrow_seq prompt s _ [] _ 0x43 [] hr, loop_nil]; rfl
  · rw [if_neg (show ¬ s.cursor < s.buf.length - 1 by omega)] at hr
    rw [loop_arrow_seq prompt s _ [] _ 0x43 [] hr, loop_nil]; rfl

theorem C13_arrows_move_cursor_witness :
    ((mode_t.NORM = mode_t.NORM) ∧ 0 < [(0x61 : Int), 0x62, 0, 9].length) ∧
    loop [0x3e, 0x20]
        { buf := [0x61, 0x62, 0, 9], cursor := 1, used := 2, recv := 0x62, mode := .NORM } []
        [0x1b, 0x5b, 0x44]
      = .waiting { buf := [0x61, 0x62, 0, 9], cursor := 0, used := 2, recv := 0x44,
                   mode := .NORM } (moveLeft 1) :=
  ⟨⟨rfl, by decide⟩, (C13_arrows_move_cursor [0x3e, 0x20]
    { buf := [0x61, 0x62, 0, 9], cursor := 1, used := 2, recv := 0x62, mode := .NORM }
    rfl (by decide)).1 (by decide)⟩

/-- C14: from a Normal-mode state the keys ESC [ H then ESC [ F leave the cursor
equal to used, buffer and used as they were and the mode Normal; ESC [ H alone
sets the cursor to 0. -/
theorem C14_home_then_end (prompt : List Int) (s : State) (_hm : s.mode = .NORM) :
    loop prompt s [] [0x1b, 0x5b, 0x48, 0x1b, 0x5b, 0x46]
        = .waiting { s with recv := 0x46, cursor := s.used, mode := .NORM }
            ((moveLeft 1000 ++ moveRight (sizeAsInt prompt.length))
              ++ (moveLeft 1000 ++ moveRight (sizeAsInt (s.used + prompt.length)))) ∧
    loop prompt s [] [0x1b, 0x5b, 0x48]
        = .waiting { s with recv := 0x48, cursor := 0, mode := .NORM }
            (moveLeft 1000 ++ moveRight (sizeAsInt prompt.length)) := by
  have hh := step_home prompt { s with recv := 0x5b, mode := .ESC } rfl
  have he := step_end prompt
    { s with recv := 0x5b, cursor := 0, mode := .ESC } rfl
  constructor
  · rw [loop_arrow_seq prompt s _ [] _ 0x48 _ hh]
    exact (loop_arrow_seq prompt
      { buf := s.buf, cursor := 0, used := s.used, recv := 0x48, mode := .NORM } _ _ _ 0x46 []
      he).trans (by rw [loop_nil]; rfl)
  · rw [loop_arrow_seq prompt s _ [] _ 0x48 [] hh, loop_nil]
    rfl

theorem C14_home_then_end_witness :
    (mode_t.NORM = mode_t.NORM) ∧
    loop [0x3e, 0x20]
        { buf := [0x61, 0x62, 0, 9], cursor := 1, used := 2, recv := 0x62, mode := .NORM } []
        [0x1b, 0x5b, 0x48, 0x1b, 0x5b, 0x46]
      = .waiting { buf := [0x61, 0x62, 0, 9], cursor := 2, used := 2, recv := 0x46,
                   mode := .NORM }
          ((moveLeft 1000 ++ moveRight (sizeAsInt [(0x3e : Int), 0x20].length))
            ++ (moveLeft 1000 ++ moveRight (sizeAsInt (2 + [(0x3e : Int), 0x20].length)))) :=
  ⟨rfl, (C14_home_then_end [0x3e, 0x20]
    { buf := [0x61, 0x62, 0, 9], cursor := 1, used := 2, recv := 0x62, mode := .NORM } rfl).1⟩

theorem moveLeft_1000 : moveLeft 1000 = lit "\x1b[1000D" := by decide

theorem moveRight_small (n : Nat) (h : n < 32768) :
    moveRight (sizeAsInt n) = [Emit.ch 0x1b, Emit.ch 0x5b] ++ digits 10 n ++ [Emit.ch 0x43] := by
  have h1 : n % 65536 = n := Nat.mod_eq_of_lt (by omega)
  have h2 : sizeAsInt n = (n : Int) := by
    unfold sizeAsInt
    rw [h1, if_pos h]
  have h3 : fmt_i (n : Int) = digits 10 n := by
    unfold fmt_i
    rw [if_neg (by omega)]
    simp
  rw [moveRight, h2, h3]

theorem suffix_reposition (prompt : List Int) (k : Nat) (pre : List Emit)
    (h : prompt.length + k < 32768) :
    List.IsSuffix (reposition prompt k)
      (pre ++ moveLeft 1000 ++ moveRight (sizeAsInt (k + prompt.length))) := by
  rw [moveRight_small _ (by omega), moveLeft_1000, Nat.add_comm k, List.append_assoc]
  exact List.suffix_append _ _

/-! ## The same steps with `bufsz` apart from the memory held -/

theorem stepIn_esc (bufsz : Nat) (prompt : List Int) (s : State) :
    stepIn bufsz prompt s 0x1b = .cont { s with recv := 0x1b, mode := .ESC } [] := by
  simp [stepIn]

theorem stepIn_bracket (bufsz : Nat) (prompt : List Int) (s : State) (hm : s.mode = .ESC) :
    stepIn bufsz prompt s 0x5b = .cont { s with recv := 0x5b } [] := by
  rcases s with ⟨buf, cursor, used, r, mode⟩
  simp only at hm
  subst hm
  simp [stepIn]

theorem stepIn_three (bufsz : Nat) (prompt : List Int) (s : State) (hm : s.mode = .ESC) :
    stepIn bufsz prompt s 0x33 = .cont { s with recv := 0x33, mode := .ESC3 } [] := by
  rcases s with ⟨buf, cursor, used, r, mode⟩
  simp only at hm
  subst hm
  simp [stepIn]

theorem stepIn_home (bufsz : Nat) (prompt : List Int) (s : State) (hm : s.mode = .ESC) :
    stepIn bufsz prompt s 0x48
      = .cont { s with recv := 0x48, cursor := 0, mode := .NORM }
          (moveLeft 1000 ++ moveRight (sizeAsInt prompt.length)) := by
  rcases s with ⟨buf, cursor, used, r, mode⟩
  simp only at hm
  subst hm
  simp [stepIn]

theorem stepIn_end (bufsz : Nat) (prompt : List Int) (s : State) (hm : s.mode = .ESC) :
    stepIn bufsz prompt s 0x46
      = .cont { s with recv := 0x46, cursor := s.used, mode := .NORM }
          (moveLeft 1000 ++ moveRight (sizeAsInt (s.used + prompt.length))) := by
  rcases s with ⟨buf, cursor, used, r, mode⟩
  simp only at hm
  subst hm
  simp [stepIn]

theorem stepIn_ctrl_r (bufsz : Nat) (prompt : List Int) (s : State) (hm : s.mode = .NORM) :
    stepIn bufsz prompt s 0x12
      = .cont { s with recv := 0x12 }
          ([Emit.ch 0x0d] ++ List.replicate bufsz (Emit.ch 0x20) ++ [Emit.ch 0x0d]
            ++ (prompt.map Emit.ch ++ fmt_s s.buf) ++ moveLeft 1000
            ++ moveRight (sizeAsInt (s.cursor + prompt.length))) := by
  rcases s with ⟨buf, cursor, used, r, mode⟩
  simp only at hm
  subst hm
  simp [stepIn]

theorem stepIn_insert (bufsz : Nat) (prompt : List Int) (s : State) (c : Int)
    (hm : s.mode = .NORM) (hc : 0x20 ≤ c) (hc2 : c ≠ 0x7f) (hcu : s.cursor < s.used)
    (hcap : s.cursor + 1 < bufsz) (hmem : s.used < s.buf.length) :
    stepIn bufsz prompt s c
      = .cont { s with recv := c,
                       buf := s.buf.take s.cursor
                         ++ c :: ((s.buf.drop s.cursor).take (s.used - s.cursor)
                         ++ s.buf.drop (s.used + 1)),
                       cursor := s.cursor + 1, used := s.used + 1 }
          (fmt_s (c :: ((s.buf.drop s.cursor).take (s.used - s.cursor)
              ++ s.buf.drop (s.used + 1)))
            ++ moveLeft 1000 ++ moveRight (sizeAsInt (s.cursor + 1 + prompt.length))) := by
  rcases s with ⟨buf, cursor, used, r, mode⟩
  simp only at hm hcu hcap hmem
  subst hm
  have h1 : c ≠ 0x1b := by omega
  have h2 : ¬ decSize bufsz ≤ cursor := by
    rw [decSize_pos _ (by omega)]; omega
  have h3 : cursor ≠ used := by omega
  obtain ⟨b1, hb1, hb2⟩ := insert_spec buf used cursor c (by omega) (by omega)
  have hd : (buf.take cursor ++ c :: ((buf.drop cursor).take (used - cursor)
      ++ buf.drop (used + 1))).drop cursor
      = c :: ((buf.drop cursor).take (used - cursor) ++ buf.drop (used + 1)) := by
    rw [List.drop_left' (length_pre buf cursor (by omega))]
  simp [stepIn, h1, hc, hc2, h2, h3, hb1, hb2, hd]

theorem stepIn_backspace_mid (bufsz : Nat) (prompt : List Int) (s : State)
    (hm : s.mode = .NORM) (h0 : 0 < s.cursor) (hcu : s.cursor < s.used)
    (hmem : s.used < s.buf.length) :
    stepIn bufsz prompt s 8
      = .cont { s with recv := 8,
                       buf := s.buf.take (s.cursor - 1)
                         ++ ((s.buf.drop s.cursor).take (s.used - s.cursor) ++ 0 :: s.buf.drop s.used),
                       cursor := s.cursor - 1, used := s.used - 1 }
          ([Emit.ch 8]
            ++ (fmt_s ((s.buf.drop s.cursor).take (s.used - s.cursor) ++ 0 :: s.buf.drop s.used)
                ++ [Emit.ch 0x20])
            ++ moveLeft 1000 ++ moveRight (sizeAsInt (s.cursor - 1 + prompt.length))) := by
  rcases s with ⟨buf, cursor, used, r, mode⟩
  simp only at hm h0 hcu hmem
  subst hm
  obtain ⟨k, rfl⟩ : ∃ k, cursor = k + 1 := ⟨cursor - 1, by omega⟩
  have h1 : k + 1 ≠ used := by omega
  have h2 : decSize used = used - 1 := decSize_pos _ (by omega)
  obtain ⟨b1, hb1, hb2⟩ := remove_spec buf used k (by omega) hmem
  have e : used - k - 1 = used - (k + 1) := by omega
  rw [e] at hb2
  have hd : (buf.take k ++ ((buf.drop (k + 1)).take (used - (k + 1)) ++ 0 :: buf.drop used)).drop k
      = (buf.drop (k + 1)).take (used - (k + 1)) ++ 0 :: buf.drop used := by
    rw [List.drop_left' (length_pre buf k (by omega))]
  simp [stepIn, h1, h2, hb1, hb2, hd]

theorem stepIn_delete (bufsz : Nat) (prompt : List Int) (s : State) (hm : s.mode = .ESC3)
    (hcu : s.cursor < s.used) (hmem : s.used < s.buf.length) :
    stepIn bufsz prompt s 0x7e
      = .cont { s with recv := 0x7e, mode := .NORM,
                       buf := s.buf.take s.cursor
                         ++ ((s.buf.drop (s.cursor + 1)).take (s.used - s.cursor - 1)
                         ++ 0 :: s.buf.drop s.used),
                       used := s.used - 1 }
          ([Emit.ch 8]
            ++ (fmt_s ((s.buf.take s.cursor
                         ++ ((s.buf.drop (s.cursor + 1)).take (s.used - s.cursor - 1)
                         ++ 0 :: s.buf.drop s.used)).drop (decSize s.cursor))
                ++ [Emit.ch 0x20])
            ++ moveLeft 1000 ++ moveRight (sizeAsInt (s.cursor + prompt.length))) := by
  rcases s with ⟨buf, cursor, used, r, mode⟩
  simp only at hm hcu hmem
  subst hm
  have h1 : cursor ≠ used := by omega
  have h2 : decSize used = used - 1 := decSize_pos _ (by omega)
  obtain ⟨b1, hb1, hb2⟩ := remove_spec buf used cursor (by omega) hmem
  simp [stepIn, h1, h2, hb1, hb2]

theorem loopIn_nil (bufsz : Nat) (prompt : List Int) (s : State) (out : List Emit) :
    loopIn bufsz prompt s out [] = .waiting s out := rfl

theorem loopIn_cons_cont (bufsz : Nat) (prompt : List Int) (s s1 : State) (out o : List Emit)
    (c : Int) (cs : List Int) (h : stepIn bufsz prompt s c = .cont s1 o) :
    loopIn bufsz prompt s out (c :: cs) = loopIn bufsz prompt s1 (out ++ o) cs := by
  simp [loopIn, h]

theorem loopIn_arrow_seq (bufsz : Nat) (prompt : List Int) (s s1 : State) (out o : List Emit)
    (k : Int) (cs : List Int)
    (h : stepIn bufsz prompt { s with recv := 0x5b, mode := .ESC } k = .cont s1 o) :
    loopIn bufsz prompt s out (0x1b :: 0x5b :: k :: cs) = loopIn bufsz prompt s1 (out ++ o) cs := by
  rw [loopIn_cons_cont _ _ _ _ _ _ _ _ (stepIn_esc bufsz prompt s)]
  rw [loopIn_cons_cont _ _ _ _ _ _ _ _ (stepIn_bracket bufsz prompt _ rfl)]
  rw [loopIn_cons_cont _ _ _ _ _ _ _ _ h]
  simp

theorem loopIn_delete_seq (bufsz : Nat) (prompt : List Int) (s s1 : State) (out o : List Emit)
    (cs : List Int)
    (h : stepIn bufsz prompt { s with recv := 0x33, mode := .ESC3 } 0x7e = .cont s1 o) :
    loopIn bufsz prompt s out (0x1b :: 0x5b :: 0x33 :: 0x7e :: cs)
      = loopIn bufsz prompt s1 (out ++ o) cs := by
  rw [loopIn_cons_cont _ _ _ _ _ _ _ _ (stepIn_esc bufsz prompt s)]
  rw [loopIn_cons_cont _ _ _ _ _ _ _ _ (stepIn_bracket bufsz prompt _ rfl)]
  rw [loopIn_cons_cont _ _ _ _ _ _ _ _ (stepIn_three bufsz prompt _ rfl)]
  rw [loopIn_cons_cont _ _ _ _ _ _ _ _ h]
  simp

/-- C15: for a call with any `bufsz`, on a state whose memory holds `buf[used]`
where the step reads or writes it, and with the prompt's length plus the
cursor after the step below 32768 (the column is printed with `%i`, a 16-bit
`int`; the positioning protocol takes 1000 to exceed any line length), what
each of Home (ESC [ H), End (ESC [ F), insert with `cursor < used`
(a printable byte with `cursor < bufsz - 1`), Backspace with `0 < cursor < used`,
Delete (ESC [ 3 ~) with `cursor < used` and Ctrl-R writes ends with
ESC [ 1000 D followed by ESC [ n C, n the decimal rendering of the prompt's
length plus the cursor after the step.  `used` is not bounded by `bufsz`:
with `bufsz = 4`, the array holding "abcd" with one byte behind it, the cursor
at 0 and `used = 4`, inserting 'X' writes the redraw and then
ESC [ 1000 D ESC [ 3 C. -/
theorem C15_output_ends_with_reposition :
    (∀ (bufsz : Nat) (prompt : List Int) (s : State), s.mode = .NORM →
      prompt.length < 32768 →
      ∃ s1 out, loopIn bufsz prompt s [] [0x1b, 0x5b, 0x48] = .waiting s1 out ∧ s1.cursor = 0 ∧
        List.IsSuffix (reposition prompt s1.cursor) out) ∧
    (∀ (bufsz : Nat) (prompt : List Int) (s : State), s.mode = .NORM →
      prompt.length + s.used < 32768 →
      ∃ s1 out, loopIn bufsz prompt s [] [0x1b, 0x5b, 0x46] = .waiting s1 out ∧
        s1.cursor = s.used ∧ List.IsSuffix (reposition prompt s1.cursor) out) ∧
    (∀ (bufsz : Nat) (prompt : List Int) (s : State) (c : Int), s.mode = .NORM →
      0x20 ≤ c ∧ c ≤ 0x7e → s.cursor < s.used → s.cursor + 1 < bufsz →
      s.used < s.buf.length → prompt.length + (s.cursor + 1) < 32768 →
      ∃ s1 out, stepIn bufsz prompt s c = .cont s1 out ∧ s1.cursor = s.cursor + 1 ∧
        List.IsSuffix (reposition prompt s1.cursor) out) ∧
    (∀ (bufsz : Nat) (prompt : List Int) (s : State), s.mode = .NORM → 0 < s.cursor →
      s.cursor < s.used → s.used < s.buf.length → prompt.length + (s.cursor - 1) < 32768 →
      ∃ s1 out, stepIn bufsz prompt s 8 = .cont s1 out ∧ s1.cursor = s.cursor - 1 ∧
        List.IsSuffix (reposition prompt s1.cursor) out) ∧
    (∀ (bufsz : Nat) (prompt : List Int) (s : State), s.mode = .NORM →
      s.cursor < s.used → s.used < s.buf.length → prompt.length + s.cursor < 32768 →
      ∃ s1 out, loopIn bufsz prompt s [] [0x1b, 0x5b, 0x33, 0x7e] = .waiting s1 out ∧
        s1.cursor = s.cursor ∧ List.IsSuffix (reposition prompt s1.cursor) out) ∧
    (∀ (bufsz : Nat) (prompt : List Int) (s : State), s.mode = .NORM →
      prompt.length + s.cursor < 32768 →
      ∃ s1 out, stepIn bufsz prompt s 0x12 = .cont s1 out ∧ s1.cursor = s.cursor ∧
        List.IsSuffix (reposition prompt s1.cursor) out) ∧
    (stepIn 4 (codes "> ")
        { buf := codes "abcd\x00", cursor := 0, used := 4, recv := 0x48, mode := .NORM } 0x58
      = .cont { buf := codes "Xabcd", cursor := 1, used := 5, recv := 0x58, mode := .NORM }
          (lit "Xabcd" ++ [Emit.unknown] ++ lit "\x1b[1000D\x1b[3C")) := by
  refine ⟨?_, ?_, ?_, ?_, ?_, ?_, by decide⟩
  · intro bufsz prompt s _ hp
    have hh := stepIn_home bufsz prompt { s with recv := 0x5b, mode := .ESC } rfl
    have hl := loopIn_arrow_seq bufsz prompt s _ [] _ 0x48 [] hh
    rw [loopIn_nil] at hl
    refine ⟨_, _, hl, rfl, ?_⟩
    have := suffix_reposition prompt 0 [] (by omega)
    simpa using this
  · intro bufsz prompt s _ hp
    have he := stepIn_end bufsz prompt { s with recv := 0x5b, mode := .ESC } rfl
    have hl := loopIn_arrow_seq bufsz prompt s _ [] _ 0x46 [] he
    rw [loopIn_nil] at hl
    refine ⟨_, _, hl, rfl, ?_⟩
    have := suffix_reposition prompt s.used [] (by omega)
    simpa using this
  · intro bufsz prompt s c hm hc hcu hcap hmem hp
    refine ⟨_, _, stepIn_insert bufsz prompt s c hm hc.1 (by omega) hcu hcap hmem, rfl, ?_⟩
    exact suffix_reposition prompt (s.cursor + 1) _ hp
  · intro bufsz prompt s hm h0 hcu hmem hp
    refine ⟨_, _, stepIn_backspace_mid bufsz prompt s hm h0 hcu hmem, rfl, ?_⟩
    exact suffix_reposition prompt (s.cursor - 1) _ hp
  · intro bufsz prompt s _ hcu hmem hp
    have hd := stepIn_delete bufsz prompt { s with recv := 0x33, mode := .ESC3 } rfl hcu hmem
    have hl := loopIn_delete_seq bufsz prompt s _ [] _ [] hd
    rw [loopIn_nil, List.nil_append] at hl
    refine ⟨_, _, hl, rfl, ?_⟩
    exact suffix_reposition prompt s.cursor _ hp
  · intro bufsz prompt s hm hp
    refine ⟨_, _, stepIn_ctrl_r bufsz prompt s hm, rfl, ?_⟩
    exact suffix_reposition prompt s.cursor _ hp

theorem C15_output_ends_with_reposition_witness :
    ((mode_t.NORM = mode_t.NORM) ∧ ((0x20 : Int) ≤ 0x58 ∧ (0x58 : Int) ≤ 0x7e) ∧ 0 < 4 ∧
      0 + 1 < 4 ∧ 4 < (codes "abcd\x00").length ∧ (codes "> ").length + (0 + 1) < 32768) ∧
    ∃ s1 out, stepIn 4 (codes "> ")
        { buf := codes "abcd\x00", cursor := 0, used := 4, recv := 0x48, mode := .NORM } 0x58
          = .cont s1 out ∧ s1.cursor = 0 + 1 ∧
      List.IsSuffix (reposition (codes "> ") s1.cursor) out :=
  ⟨⟨rfl, by decide, by decide, by decide, by decide, by decide⟩,
    C15_output_ends_with_reposition.2.2.1 4 (codes "> ")
      { buf := codes "abcd\x00", cursor := 0, used := 4, recv := 0x48, mode := .NORM } 0x58
      rfl (by decide) (by decide) (by decide) (by decide) (by decide)⟩

theorem step_norm_other (prompt : List Int) (s : State) (b : Int) (hm : s.mode = .NORM)
    (h1 : b ≠ 0x1b) (h2 : b ≠ 8) (h3 : b ≠ 0x12) (h4 : b ≠ 3) (h5 : ¬ (0x20 ≤ b ∧ b ≠ 0x7f)) :
    step prompt s b = .ret { s with recv := b } [Emit.ch 0x0a] := by
  rcases s with ⟨buf, cursor, used, r, mode⟩
  simp only at hm
  subst hm
  simp only [not_and, ne_eq, not_not] at h5
  by_cases h6 : 0x20 ≤ b
  · have h7 := h5 h6
    subst h7
    simp [step, stepIn]
  · have h8 : b < 32 := by omega
    simp [step, stepIn, h1, h2, h3, h4, h8]

theorem not_ret_esc_mode (prompt : List Int) (s : State) (b : Int) (hm : s.mode = .ESC)
    (s1 : State) (out : List Emit) : step prompt s b ≠ .ret s1 out := by
  rcases s with ⟨buf, cursor, used, r, mode⟩
  simp only at hm
  subst hm
  by_cases h1 : b = 0x1b
  · subst h1; simp [step, stepIn]
  by_cases h2 : b = 0x5d
  · subst h2; simp [step, stepIn]
  by_cases h3 : b = 0x48
  · subst h3; simp [step, stepIn]
  by_cases h4 : b = 0x46
  · subst h4; simp [step, stepIn]
  by_cases h5 : b = 0x5b
  · subst h5; simp [step, stepIn]
  by_cases h6 : b = 0x33
  · subst h6; simp [step, stepIn]
  by_cases h7 : b = 0x44
  · subst h7
    by_cases hp : r = 0x5b
    · by_cases hc : 0 < cursor <;> simp [step, stepIn, hp, hc]
    · simp [step, stepIn, hp]
  by_cases h8 : b = 0x43
  · subst h8
    by_cases hp : r = 0x5b
    · by_cases hc : cursor < decSize buf.length <;> simp [step, stepIn, hp, hc]
    · simp [step, stepIn, hp]
  simp [step, stepIn, h1, h2, h3, h4, h5, h6, h7, h8]

theorem not_ret_esc3_mode (prompt : List Int) (s : State) (b : Int) (hm : s.mode = .ESC3)
    (s1 : State) (out : List Emit) : step prompt s b ≠ .ret s1 out := by
  rcases s with ⟨buf, cursor, used, r, mode⟩
  simp only at hm
  subst hm
  by_cases h1 : b = 0x1b
  · subst h1; simp [step, stepIn]
  by_cases h2 : b = 0x7e
  · subst h2
    by_cases hc : cursor = used
    · simp [step, stepIn, hc]
    · simp only [step, stepIn]
      simp [hc]
      repeat' split
      all_goals simp
  simp [step, stepIn, h1, h2]

theorem not_ret_printable (prompt : List Int) (s : State) (b : Int) (hm : s.mode = .NORM)
    (hb : 0x20 ≤ b) (hb2 : b ≠ 0x7f) (s1 : State) (out : List Emit) :
    step prompt s b ≠ .ret s1 out := by
  rcases s with ⟨buf, cursor, used, r, mode⟩
  simp only at hm
  subst hm
  have h1 : b ≠ 0x1b := by omega
  by_cases hf : decSize buf.length ≤ cursor
  · simp [step, stepIn, h1, hb, hb2, hf]
  by_cases hc : cursor = used
  · simp only [step, stepIn]
    simp [h1, hb, hb2, hf, hc]
    repeat' split
    all_goals simp
  · simp only [step, stepIn]
    simp [h1, hb, hb2, hf, hc]
    repeat' split
    all_goals simp

theorem not_ret_backspace (prompt : List Int) (s : State) (hm : s.mode = .NORM)
    (s1 : State) (out : List Emit) : step prompt s 8 ≠ .ret s1 out := by
  rcases s with ⟨buf, cursor, used, r, mode⟩
  simp only at hm
  subst hm
  by_cases h0 : cursor = 0
  · simp [step, stepIn, h0]
  by_cases hc : cursor = used
  · simp only [step, stepIn]
    simp [h0, hc]
    repeat' split
    all_goals simp
  · simp only [step, stepIn]
    simp [h0, hc]
    repeat' split
    all_goals simp

theorem not_ret_ctrl_c (prompt : List Int) (s : State) (hm : s.mode = .NORM)
    (s1 : State) (out : List Emit) : step prompt s 3 ≠ .ret s1 out := by
  rcases s with ⟨buf, cursor, used, r, mode⟩
  simp only at hm
  subst hm
  simp only [step, stepIn]
  simp
  repeat' split
  all_goals simp

/-- C16: on a byte `b` in 0x00..0x7F the loop returns exactly when the mode is
Normal and `b` is none of ESC, Backspace, Ctrl-R, Ctrl-C and not printable
(0x20..0x7E).  So in Normal mode Return, Tab, Line Feed and DEL all return,
and in Escape or EscapeBracket3 mode Return does not. -/
theorem C16_return_iff_unhandled_in_normal :
    (∀ (prompt : List Int) (s : State) (b : Int), 0 ≤ b → b ≤ 0x7f →
      ((∃ s1 out, step prompt s b = .ret s1 out) ↔
        (s.mode = .NORM ∧ b ≠ 0x1b ∧ b ≠ 8 ∧ b ≠ 0x12 ∧ b ≠ 3 ∧ ¬ (0x20 ≤ b ∧ b ≤ 0x7e)))) ∧
    (∀ (prompt : List Int) (s : State), s.mode = .NORM →
      step prompt s 0x0d = .ret { s with recv := 0x0d } [Emit.ch 0x0a] ∧
      step prompt s 0x09 = .ret { s with recv := 0x09 } [Emit.ch 0x0a] ∧
      step prompt s 0x0a = .ret { s with recv := 0x0a } [Emit.ch 0x0a] ∧
      step prompt s 0x7f = .ret { s with recv := 0x7f } [Emit.ch 0x0a]) ∧
    (∀ (prompt : List Int) (s : State), s.mode = .ESC ∨ s.mode = .ESC3 →
      ∀ s1 out, step prompt s 0x0d ≠ .ret s1 out) := by
  refine ⟨?_, ?_, ?_⟩
  · intro prompt s b _ hb1
    constructor
    · rintro ⟨s1, out, h⟩
      have hm : s.mode = .NORM := by
        cases hmode : s.mode
        · rfl
        · exact absurd h (not_ret_esc_mode prompt s b hmode s1 out)
        · exact absurd h (not_ret_esc3_mode prompt s b hmode s1 out)
      refine ⟨hm, ?_, ?_, ?_, ?_, ?_⟩
      · intro hb; subst hb; rw [step_esc] at h; cases h
      · intro hb; subst hb; exact not_ret_backspace prompt s hm s1 out h
      · intro hb; subst hb; rw [step_ctrl_r prompt s hm] at h; cases h
      · intro hb; subst hb; exact not_ret_ctrl_c prompt s hm s1 out h
      · intro hb
        exact not_ret_printable prompt s b hm hb.1 (by omega) s1 out h
    · rintro ⟨hm, h1, h2, h3, h4, h5⟩
      exact ⟨_, _, step_norm_other prompt s b hm h1 h2 h3 h4 (by omega)⟩
  · intro prompt s hm
    exact ⟨step_norm_other prompt s _ hm (by decide) (by decide) (by decide) (by decide) (by decide),
      step_norm_other prompt s _ hm (by decide) (by decide) (by decide) (by decide) (by decide),
      step_norm_other prompt s _ hm (by decide) (by decide) (by decide) (by decide) (by decide),
      step_norm_other prompt s _ hm (by decide) (by decide) (by decide) (by decide) (by decide)⟩
  · intro prompt s hm s1 out
    rcases hm with hm | hm
    · exact not_ret_esc_mode prompt s _ hm s1 out
    · exact not_ret_esc3_mode prompt s _ hm s1 out

theorem C16_return_iff_unhandled_in_normal_witness :
    ((0 : Int) ≤ 0x09 ∧ (0x09 : Int) ≤ 0x7f) ∧
    ((∃ s1 out, step [0x3e, 0x20]
        { buf := [0x61, 0x62, 0, 9], cursor := 1, used := 2, recv := 0x62, mode := .NORM } 0x09
          = .ret s1 out) ↔
      (mode_t.NORM = mode_t.NORM ∧ (0x09 : Int) ≠ 0x1b ∧ (0x09 : Int) ≠ 8 ∧ (0x09 : Int) ≠ 0x12 ∧
        (0x09 : Int) ≠ 3 ∧ ¬ ((0x20 : Int) ≤ 0x09 ∧ (0x09 : Int) ≤ 0x7e))) :=
  ⟨⟨by decide, by decide⟩, C16_return_iff_unhandled_in_normal.1 [0x3e, 0x20]
    { buf := [0x61, 0x62, 0, 9], cursor := 1, used := 2, recv := 0x62, mode := .NORM } 0x09
    (by decide) (by decide)⟩

/-- C17: evaluated at `F_CPU = 16000000`.  The product `F_CPU * INTERVAL_MS` is
8000000000 and does not fit 32 bits: it wraps to 3705032704, so `TCNTVAL` is
0xFFFF - 3618 = 61917 and not the exact 0xFFFF - 7812 = 57723; started from
61917 the timer passes 0xFFFF after 231 ms, not 500. -/
theorem C17_TCNTVAL_wraps_at_16MHz :
    (16000000 * INTERVAL_MS) % ULONG_MOD = 3705032704 ∧
    TCNTVAL 16000000 = 61917 ∧ TCNTVAL_exact 16000000 = 57723 ∧
    TCNTVAL 16000000 ≠ TCNTVAL_exact 16000000 ∧
    overflow_ms 16000000 (TCNTVAL 16000000) = 231 ∧
    overflow_ms 16000000 (TCNTVAL_exact 16000000) = 499 := by
  refine ⟨by decide, by decide, by decide, by decide, by decide, by decide⟩

end Readline

namespace Lis3dh

/-- C18: the handler's second write, `buf[BUFSZ+1] = 0`, is outside every array
of `BUFSZ + 1` elements (the last element is `buf[BUFSZ]`).  Run on the array
together with the byte that follows it in memory, the handler leaves
`buf[BUFSZ]` as it was and zeroes the byte after the array. -/
theorem C18_terminator_written_past_the_array :
    (∀ (buf : List Int) (cursor : Nat) (udr0 : Int), buf.length = BUFSZ + 1 →
      USART_RX_vect { buf := buf, cursor := cursor } udr0 = none) ∧
    (∃ s1, USART_RX_vect { buf := List.replicate BUFSZ 0x20 ++ [0x21, 0x55], cursor := 0 } 0x61
        = some s1 ∧
      s1.buf = 0x61 :: List.replicate (BUFSZ - 1) 0x20 ++ [0x21, 0] ∧
      s1.buf[BUFSZ]? = some 0x21 ∧ s1.buf[BUFSZ + 1]? = some 0 ∧ s1.cursor = 1) := by
  constructor
  · intro buf cursor udr0 hlen
    unfold USART_RX_vect
    cases h : Readline.store buf cursor udr0 with
    | none => rfl
    | some b1 =>
      have hb1 : b1.length = BUFSZ + 1 := by
        unfold Readline.store at h
        split at h
        · injection h with h; rw [← h, List.length_set, hlen]
        · cases h
      simp [Readline.store, hb1]
  · exact ⟨_, rfl, by decide, by decide, by decide, rfl⟩

end Lis3dh

namespace Readline

theorem take_mid_eq (l : List Int) (i u : Nat) (h : i ≤ u) :
    l.take i ++ (l.drop i).take (u - i) = l.take u := by
  have e : u = i + (u - i) := by omega
  conv_rhs => rw [e, List.take_add]

theorem insert_then_backspace (l : List Int) (i u : Nat) (c : Int) (hi : i < u)
    (hu : u + 1 < l.length) :
    (l.take i ++ c :: ((l.drop i).take (u - i) ++ l.drop (u + 1))).take (i + 1 - 1)
        ++ (((l.take i ++ c :: ((l.drop i).take (u - i) ++ l.drop (u + 1))).drop
              (i + 1)).take (u + 1 - (i + 1))
            ++ 0 :: (l.take i ++ c :: ((l.drop i).take (u - i) ++ l.drop (u + 1))).drop (u + 1))
      = l.take u ++ 0 :: l.drop (u + 1) := by
  have hp := length_pre l i (by omega)
  have hm := length_mid l i u (show u < l.length by omega)
  rw [← take_mid_eq l i u (Nat.le_of_lt hi)]
  generalize l.take i = pre at hp
  generalize (l.drop i).take (u - i) = mid at hm
  generalize l.drop (u + 1) = post
  have e1 : (pre ++ c :: (mid ++ post)).take (i + 1 - 1) = pre :=
    List.take_left' (by simp [hp])
  have e2 : (pre ++ c :: (mid ++ post)).drop (i + 1) = mid ++ post := by
    rw [show pre ++ c :: (mid ++ post) = (pre ++ [c]) ++ (mid ++ post) by simp]
    exact List.drop_left' (by simp [hp])
  have e3 : (pre ++ c :: (mid ++ post)).drop (u + 1) = post := by
    rw [show pre ++ c :: (mid ++ post) = (pre ++ c :: mid) ++ post by simp]
    exact List.drop_left' (by simp [hp, hm]; omega)
  have e4 : (mid ++ post).take (u + 1 - (i + 1)) = mid :=
    List.take_left' (by rw [hm]; omega)
  rw [e1, e2, e3, e4]
  simp

/-- C19: in Normal mode with `cursor <= used <= capacity - 2`, typing a printable
`c` and then Backspace gives back the line: cursor and used have their
original values, the first `used` characters are the original ones, the
buffer is null-terminated at `used` and the mode is Normal, whether `c` was
appended or inserted.  (The terminator at the old `used` is not needed.) -/
theorem C19_type_then_backspace_restores (prompt : List Int) (s : State) (c : Int)
    (hm : s.mode = .NORM) (hcu : s.cursor ≤ s.used) (hroom : s.used + 2 ≤ s.buf.length)
    (hc : 0x20 ≤ c ∧ c ≤ 0x7e) :
    ∃ s2 out, loop prompt s [] [c, 8] = .waiting s2 out ∧ s2.mode = .NORM ∧
      s2.cursor = s.cursor ∧ s2.used = s.used ∧ s2.buf.take s.used = s.buf.take s.used ∧
      s2.buf[s.used]? = some 0 := by
  rcases Nat.eq_or_lt_of_le hcu with h | h
  · have h1 := step_append prompt s c hm hc.1 (by omega) h (by omega)
    have h2 := step_backspace_end prompt
      { s with recv := c, buf := (s.buf.set s.cursor c).set (s.cursor + 1) 0,
               cursor := s.cursor + 1, used := s.used + 1 }
      hm (by simp) (by simp [h]) (by simp; omega)
    have hl := loop_cons_cont prompt s _ [] _ c [8] h1
    rw [loop_cons_cont prompt _ _ _ _ 8 [] h2, loop_nil] at hl
    refine ⟨_, _, hl, hm, rfl, rfl, ?_, ?_⟩
    · show (((s.buf.set s.cursor c).set (s.cursor + 1) 0).set (s.cursor + 1 - 1) 0).take s.used
        = s.buf.take s.used
      rw [Nat.add_sub_cancel, h, take_set_self, List.take_set_of_lt _ _ (Nat.lt_succ_self _),
        take_set_self]
    · show (((s.buf.set s.cursor c).set (s.cursor + 1) 0).set (s.cursor + 1 - 1) 0)[s.used]?
        = some 0
      rw [Nat.add_sub_cancel, h, List.getElem?_set_eq_of_lt]
      simp; omega
  · have h1 := step_insert prompt s c hm hc.1 (by omega) h (by omega)
    have h2 := step_backspace_mid prompt
      { s with recv := c,
               buf := s.buf.take s.cursor
                 ++ c :: ((s.buf.drop s.cursor).take (s.used - s.cursor) ++ s.buf.drop (s.used + 1)),
               cursor := s.cursor + 1, used := s.used + 1 }
      hm (by simp) (by simp; omega) (by simp; omega)
    simp only [insert_then_backspace s.buf s.cursor s.used c h (by omega)] at h2
    have hl := loop_cons_cont prompt s _ [] _ c [8] h1
    rw [loop_cons_cont prompt _ _ _ _ 8 [] h2, loop_nil] at hl
    refine ⟨_, _, hl, hm, rfl, rfl, ?_, ?_⟩
    · show (s.buf.take s.used ++ 0 :: s.buf.drop (s.used + 1)).take s.used = _
      exact List.take_left' (length_pre _ _ (by omega))
    · show (s.buf.take s.used ++ 0 :: s.buf.drop (s.used + 1))[s.used]? = some 0
      exact getElem?_mid_of_eq _ _ _ _ (length_pre _ _ (by omega)).symm

theorem C19_type_then_backspace_restores_witness :
    ((mode_t.NORM = mode_t.NORM) ∧ 1 ≤ 3 ∧ 3 + 2 ≤ [(0x61 : Int), 0x62, 0x63, 0, 9, 9, 9, 9].length ∧
      ((0x20 : Int) ≤ 0x58 ∧ (0x58 : Int) ≤ 0x7e)) ∧
    ∃ s2 out, loop [0x3e, 0x20]
        { buf := [0x61, 0x62, 0x63, 0, 9, 9, 9, 9], cursor := 1, used := 3, recv := 0x44,
          mode := .NORM } [] [0x58, 8] = .waiting s2 out ∧ s2.mode = .NORM ∧
      s2.cursor = 1 ∧ s2.used = 3 ∧
      s2.buf.take 3 = [0x61, 0x62, 0x63, 0, 9, 9, 9, 9].take 3 ∧ s2.buf[3]? = some 0 :=
  ⟨⟨rfl, by decide, by decide, by decide⟩,
    C19_type_then_backspace_restores [0x3e, 0x20]
      { buf := [0x61, 0x62, 0x63, 0, 9, 9, 9, 9], cursor := 1, used := 3, recv := 0x44,
        mode := .NORM } 0x58 rfl (by decide) (by decide) (by decide)⟩

/-- C20: evaluated on three states with `cursor <= used <= capacity - 1` and a null
at index `used`.  (1) Capacity 8 after "ab", ESC [ H: Delete redraws from
`&buf[cursor-1]` with `cursor = 0`, an index (`decSize 0`) outside the array.
(2) Capacity 4 holding "abc" with the cursor at 0: inserting 'X' overwrites the
terminator in the last slot, and the redraw reads on past the array.
(3) Capacity 8 holding "ab" with nonzero bytes behind the terminator: the same
redraw finds no null inside the array.  `Emit.unknown` in the output is what
`fmt_s` puts for a read outside the array. -/
theorem C20_redraw_reads_outside_array :
    (readline (List.replicate 8 0) (codes "> ") (codes "ab\x1b[H")
        = .waiting { buf := codes "ab\x00\x00\x00\x00\x00\x00", cursor := 0, used := 2,
                     recv := 0x48, mode := .NORM }
            (lit "> ab\x1b[1000D\x1b[2C") ∧
      loop (codes "> ")
          { buf := codes "ab\x00\x00\x00\x00\x00\x00", cursor := 0, used := 2, recv := 0x48,
            mode := .NORM } [] [0x1b, 0x5b, 0x33, 0x7e]
        = .waiting { buf := codes "b\x00\x00\x00\x00\x00\x00\x00", cursor := 0, used := 1,
                     recv := 0x7e, mode := .NORM }
            ([Emit.ch 8, Emit.unknown, Emit.ch 0x20] ++ lit "\x1b[1000D\x1b[2C") ∧
      decSize 0 = 65535 ∧ ¬ decSize 0 < (codes "b\x00\x00\x00\x00\x00\x00\x00").length) ∧
    step (codes "> ")
        { buf := codes "abc\x00", cursor := 0, used := 3, recv := 0x48, mode := .NORM } 0x58
      = .cont { buf := codes "Xabc", cursor := 1, used := 4, recv := 0x58, mode := .NORM }
          (lit "Xabc" ++ [Emit.unknown] ++ lit "\x1b[1000D\x1b[3C") ∧
    step (codes "> ")
        { buf := codes "ab\x00ZZZZZ", cursor := 0, used := 2, recv := 0x48, mode := .NORM } 0x58
      = .cont { buf := codes "XabZZZZZ", cursor := 1, used := 3, recv := 0x58, mode := .NORM }
          (lit "XabZZZZZ" ++ [Emit.unknown] ++ lit "\x1b[1000D\x1b[3C") := by
  refine ⟨⟨by decide, by decide, by decide, by decide⟩, by decide, by decide⟩

end Readline
